import Mathlib

/-!
Verification development for the screeps-starter-rust task/reservation
scheduling core.  The definitions below are a shallow embedding of the
Rust source under `src/`: `task.rs` (the `Task` union, the reservation
ledger operation `add_reservation_with_amount`, `run_task`) and the role
modules (`builder.rs`, `hauler.rs`, `upgrader.rs`, `startup.rs`,
`source_harvester.rs`, `tower.rs`).  Machine integers (`u32`) are
modelled as `Nat` with explicit saturation at `2^32 - 1`; the `i32`
result of `get_free_capacity` is modelled as `Int` and clamped by
`try_into().unwrap_or(0)` semantics.  Parts of the repository that the
role modules call but that are not present under `src/` (the
`TaskQueueEntry` constructors, the `release` ledger operation, the
numeric constants of `constants.rs`) are modelled from the spec and
marked as such in their doc comments.
-/

namespace Screeps

/-- `u32::MAX`, the saturation bound of the ledger arithmetic. -/
def u32max : Nat := 4294967295

/-- Rust `u32::saturating_add` on the `Nat` model. -/
def satAdd (a b : Nat) : Nat := min (a + b) u32max

/-- Rust `i32 -> u32` conversion via `try_into().unwrap_or(0)`:
negative values clamp to zero. -/
def clampU32 (i : Int) : Nat := i.toNat

/-- A room-local position (`screeps::local::Position`, restricted to the
coordinates the modelled code inspects). -/
structure Position where
  x : Nat
  y : Nat
deriving DecidableEq, Repr

/-- `Position::get_range_to`: Chebyshev distance between two positions. -/
def Position.get_range_to (p q : Position) : Nat :=
  max (Nat.dist p.x q.x) (Nat.dist p.y q.y)

/-- Resource kinds; only energy is distinguished by the modelled code. -/
inductive ResourceType where
  | Energy
  | Other
deriving DecidableEq, Repr

/-- The `Task` tagged union from `task.rs`.  Object ids are modelled as
`Nat`; the `WorkerRole` payload of `SpawnCreep` is likewise opaque. -/
inductive Task where
  | WaitToSpawn
  | IdleUntil (tick : Nat)
  | MoveToPosition (pos : Position) (range : Nat)
  | HarvestEnergyUntilFull (id : Nat)
  | HarvestEnergyForever (id : Nat)
  | Upgrade (id : Nat)
  | SpawnCreep (role : Nat)
  | Build (id : Nat)
  | Repair (id : Nat)
  | TakeFromResource (id : Nat)
  | TakeFromStructure (id : Nat) (ty : ResourceType)
  | DeliverToStructure (id : Nat) (ty : ResourceType)
deriving DecidableEq, Repr

/-- The reservation ledger (`HashMap<Task, u32>` in the roles,
`shard_state.reserved_tasks` in `task.rs`), modelled as an association
list. -/
abbrev Ledger : Type := List (Task × Nat)

/-- `task_reservations.get(&task).unwrap_or(&0)`: the claimed amount for
a task identity, zero when absent. -/
def lookup0 (m : Ledger) (t : Task) : Nat :=
  match m with
  | [] => 0
  | (k, v) :: rest => if k = t then v else lookup0 rest t

/-- `Task::add_reservation_with_amount` from `task.rs`:
`entry(*self).and_modify(|r| *r = r.saturating_add(amount)).or_insert(amount)`.
If the identity is present its value is saturating-added with `amount`,
otherwise the entry is inserted with value `amount`. -/
def add_reservation_with_amount (m : Ledger) (t : Task) (amount : Nat) : Ledger :=
  match m with
  | [] => [(t, amount)]
  | (k, v) :: rest =>
    if k = t then (k, satAdd v amount) :: rest
    else (k, v) :: add_reservation_with_amount rest t amount

/-- Modelled from the spec: the `release` ledger operation is not under
`src/` (spec section 4.1): saturating-subtract `amount` from the entry,
removing the entry entirely if the result is zero. -/
def release (m : Ledger) (t : Task) (amount : Nat) : Ledger :=
  match m with
  | [] => []
  | (k, v) :: rest =>
    if k = t then (if v - amount = 0 then rest else (k, v - amount) :: rest)
    else (k, v) :: release rest t amount

/-- Movement profiles are opaque to the modelled code (`movement.rs` is
not under `src/`); only their identity matters. -/
abbrev MovementProfile : Type := Nat

/-- A movement request as built by `Task::run_task`. -/
structure MovementGoal where
  pos : Position
  range : Nat
  profile : MovementProfile
  avoid_creeps : Bool
deriving DecidableEq

/-- The `TaskResult` union from `task.rs`. -/
inductive TaskResult where
  | Complete
  | StillWorking
  | MoveMeTo (goal : MovementGoal)
  | AddTaskToFront (t : Task)
  | CompleteAddTaskToFront (t : Task)
  | CompleteAddTaskToBack (t : Task)
  | DestroyWorker
deriving DecidableEq

/-- The worker reference as consumed by `run_task`; only its position is
inspected by the task kinds modelled here. -/
structure WorkerReference where
  pos : Position

/-- The per-kind task handlers (`task/build.rs`, `task/harvest.rs`,
`task/logistics.rs`, `task/repair.rs`, `task/spawn.rs`,
`task/upgrade.rs`) are not under `src/`; they are kept abstract so that
theorems about the in-source arms of `run_task` hold for every possible
handler behaviour. -/
structure TaskHandlers where
  harvest_energy_until_full : Nat → WorkerReference → MovementProfile → TaskResult
  harvest_energy_forever : Nat → WorkerReference → MovementProfile → TaskResult
  build : Nat → WorkerReference → MovementProfile → TaskResult
  repair : Nat → WorkerReference → MovementProfile → TaskResult
  upgrade : Nat → WorkerReference → MovementProfile → TaskResult
  take_from_resource : Nat → WorkerReference → MovementProfile → TaskResult
  take_from_structure : Nat → ResourceType → WorkerReference → MovementProfile → TaskResult
  deliver_to_structure : Nat → ResourceType → WorkerReference → MovementProfile → TaskResult
  spawn_creep : Nat → WorkerReference → TaskResult
  wait_to_spawn : WorkerReference → TaskResult

/-- `Task::run_task` from `task.rs`.  `time` is the value of
`game::time()` for the current tick. -/
def Task.run_task (h : TaskHandlers) (t : Task) (worker : WorkerReference)
    (movement_profile : MovementProfile) (time : Nat) : TaskResult :=
  match t with
  | Task.IdleUntil tick =>
    if time ≥ tick then TaskResult.Complete else TaskResult.StillWorking
  | Task.MoveToPosition position range =>
    if worker.pos.get_range_to position ≤ range then TaskResult.Complete
    else TaskResult.MoveMeTo ⟨position, range, movement_profile, false⟩
  | Task.HarvestEnergyUntilFull id => h.harvest_energy_until_full id worker movement_profile
  | Task.HarvestEnergyForever id => h.harvest_energy_forever id worker movement_profile
  | Task.Build id => h.build id worker movement_profile
  | Task.Repair id => h.repair id worker movement_profile
  | Task.Upgrade id => h.upgrade id worker movement_profile
  | Task.TakeFromResource id => h.take_from_resource id worker movement_profile
  | Task.TakeFromStructure id ty => h.take_from_structure id ty worker movement_profile
  | Task.DeliverToStructure id ty => h.deliver_to_structure id ty worker movement_profile
  | Task.SpawnCreep role => h.spawn_creep role worker
  | Task.WaitToSpawn => h.wait_to_spawn worker

/-- A queue entry pairing a task with its reservation amount.  The
`TaskQueueEntry` type itself is not under `src/`; modelled from the spec
(section 3): it "pairs a Task with the reservation amount claimed
against the Ledger at creation time". -/
structure TaskQueueEntry where
  task : Task
  amount : Nat
deriving DecidableEq, Repr

/-- Modelled from the spec: `TaskQueueEntry::new(task, amount,
task_reservations)` (not under `src/`) creates the entry and registers
its claim in the ledger; the claim semantics is the in-source
`add_reservation_with_amount`. -/
def TaskQueueEntry.new (t : Task) (amount : Nat) (l : Ledger) :
    TaskQueueEntry × Ledger :=
  (⟨t, amount⟩, add_reservation_with_amount l t amount)

/-- Modelled from the spec: `TaskQueueEntry::new_unreserved(task)` (not
under `src/`) creates a zero-reservation entry without touching the
ledger. -/
def TaskQueueEntry.new_unreserved (t : Task) : TaskQueueEntry := ⟨t, 0⟩

/-- Modelled from the spec: the two-argument `TaskQueueEntry::new(task,
amount)` used by `startup.rs` and `source_harvester.rs` (an earlier API
revision, not under `src/`); it carries an amount but receives no ledger
to mutate. -/
def TaskQueueEntry.newNoLedger (t : Task) (amount : Nat) : TaskQueueEntry :=
  ⟨t, amount⟩

/-! ## World model

A read-only snapshot of the parts of the game world the role proposal
code inspects. -/

/-- `REPAIR_POWER` from the screeps game constants: hits restored per
energy spent repairing. -/
def REPAIR_POWER : Nat := 100

/-- `BUILD_POWER` from the screeps game constants: build progress per
energy spent building. -/
def BUILD_POWER : Nat := 5

/-- Modelled from the spec: the fixed backoff constant
`NO_TASK_IDLE_TICKS` lives in `constants.rs`, which is not under `src/`;
no claim depends on its concrete value. -/
def NO_TASK_IDLE_TICKS : Nat := 10

/-- Modelled from the spec: pickup threshold from `constants.rs` (not
under `src/`); the value follows the contested-pickup scenario of the spec. -/
def BUILDER_ENERGY_PICKUP_THRESHOLD : Nat := 35

/-- Modelled from the spec: withdraw threshold from `constants.rs` (not
under `src/`). -/
def BUILDER_ENERGY_WITHDRAW_THRESHOLD : Nat := 100

/-- Modelled from the spec: pickup threshold from `constants.rs` (not
under `src/`); the value follows the contested-pickup scenario of the spec. -/
def HAULER_ENERGY_PICKUP_THRESHOLD : Nat := 35

/-- Modelled from the spec: withdraw threshold from `constants.rs` (not
under `src/`). -/
def HAULER_ENERGY_WITHDRAW_THRESHOLD : Nat := 100

/-- Modelled from the spec: pickup threshold from `constants.rs` (not
under `src/`); the value follows the contested-pickup scenario of the spec. -/
def UPGRADER_ENERGY_PICKUP_THRESHOLD : Nat := 35

/-- Modelled from the spec: withdraw threshold from `constants.rs` (not
under `src/`). -/
def UPGRADER_ENERGY_WITHDRAW_THRESHOLD : Nat := 100

/-- Modelled from the spec: terminal energy target from `constants.rs`
(not under `src/`). -/
def TERMINAL_ENERGY_TARGET : Nat := 10000

/-- The structure kinds the role code distinguishes when matching on
`StructureObject`. -/
inductive StructureKind where
  | spawn
  | extension
  | tower
  | container
  | storage
  | terminal
  | other
deriving DecidableEq, Repr

/-- A structure as seen through the world snapshot: its id, kind, hit
points, and the energy amounts of its store (`get_used_capacity` as `Nat`,
`get_free_capacity` as `Int`). -/
structure StructureInfo where
  id : Nat
  kind : StructureKind
  hits : Nat
  hitsMax : Nat
  storeUsedEnergy : Nat
  storeFreeEnergy : Int
deriving DecidableEq, Repr

/-- A dropped resource pile. -/
structure ResourceInfo where
  id : Nat
  resource_type : ResourceType
  amount : Nat
deriving DecidableEq, Repr

/-- A construction site. -/
structure ConstructionSiteInfo where
  id : Nat
  progress : Nat
  progress_total : Nat
deriving DecidableEq, Repr

/-- An active source with its room coordinates. -/
structure SourceInfo where
  id : Nat
  x : Nat
  y : Nat
deriving DecidableEq, Repr

/-- A visible room: the `room.find(...)` result lists, the controller,
and the terrain grid (`true` = wall). -/
structure Room where
  structures : List StructureInfo
  construction_sites : List ConstructionSiteInfo
  dropped_resources : List ResourceInfo
  sources_active : List SourceInfo
  controller : Option Nat
  terrainIsWall : Nat → Nat → Bool

/-- The eight direction offsets of `enum_iterator::all::<Direction>()`
(Top, TopRight, Right, BottomRight, Bottom, BottomLeft, Left, TopLeft). -/
def directions : List (Int × Int) :=
  [(0, -1), (1, -1), (1, 0), (1, 1), (0, 1), (-1, 1), (-1, 0), (-1, -1)]

/-- The `harvest_positions` count of `find_energy_or_source`: adjacent
coordinates that are on the 50x50 grid (`checked_add_direction`) and not
wall terrain. -/
def harvestPositions (room : Room) (s : SourceInfo) : Nat :=
  (directions.filter (fun d =>
    let nx : Int := (s.x : Int) + d.1
    let ny : Int := (s.y : Int) + d.2
    if 0 ≤ nx ∧ nx ≤ 49 ∧ 0 ≤ ny ∧ ny ≤ 49 then
      ! room.terrainIsWall nx.toNat ny.toNat
    else false)).length

/-- The store of an agent as inspected by the roles: used energy (`u32`) and
free energy capacity (`i32`). -/
structure Store where
  usedEnergy : Nat
  freeEnergy : Int
deriving DecidableEq, Repr

/-- The per-tick world view: room visibility by room name, the current
game time, and the `look_for(SOURCES)` query used by the source
harvester (`none` models the `Err` result when the room of the position is
not visible). -/
structure World where
  rooms : Nat → Option Room
  time : Nat
  lookSources : Position → Option (List Nat)

/-! ## Role proposal functions

Each `for`-loop with early `return` in the Rust role modules becomes a
recursive function over the scanned list returning `Option`; `none`
means the loop fell through to the code after it. -/

/-- The repair scan of `builder.rs::find_build_or_repair_task` (lines
82-102). -/
def repairLoop (repair_watermark energy_amount : Nat) (l : Ledger) :
    List StructureInfo → Option (TaskQueueEntry × Ledger)
  | [] => none
  | s :: rest =>
    if s.hitsMax ≠ 0 ∧ s.hits < repair_watermark ∧ s.hits * 2 < s.hitsMax then
      let target_max := min repair_watermark s.hitsMax
      let amount_needed := (target_max - s.hits) / REPAIR_POWER
      let task := Task.Repair s.id
      if lookup0 l task < amount_needed then
        some (TaskQueueEntry.new task energy_amount l)
      else repairLoop repair_watermark energy_amount l rest
    else repairLoop repair_watermark energy_amount l rest

/-- The construction-site scan of `builder.rs::find_build_or_repair_task`
(lines 105-113). -/
def buildLoop (energy_amount : Nat) (l : Ledger) :
    List ConstructionSiteInfo → Option (TaskQueueEntry × Ledger)
  | [] => none
  | c :: rest =>
    let amount_needed := (c.progress_total - c.progress) / BUILD_POWER
    let task := Task.Build c.id
    if lookup0 l task < amount_needed then
      some (TaskQueueEntry.new task energy_amount l)
    else buildLoop energy_amount l rest

/-- `builder.rs::find_build_or_repair_task`. -/
def find_build_or_repair_task (room : Room)
    (repair_watermark energy_amount : Nat) (l : Ledger) (time : Nat) :
    TaskQueueEntry × Ledger :=
  match repairLoop repair_watermark energy_amount l room.structures with
  | some r => r
  | none =>
    match buildLoop energy_amount l room.construction_sites with
    | some r => r
    | none =>
      (TaskQueueEntry.new_unreserved (Task.IdleUntil (time + NO_TASK_IDLE_TICKS)), l)

/-- The dropped-energy pickup scan shared (textually duplicated, up to
the threshold constant) by `builder.rs::find_energy_or_source`,
`hauler.rs::find_energy` and `upgrader.rs::find_energy_or_source`. -/
def droppedEnergyLoop (threshold energy_capacity : Nat) (l : Ledger) :
    List ResourceInfo → Option (TaskQueueEntry × Ledger)
  | [] => none
  | r :: rest =>
    if r.resource_type = ResourceType.Energy ∧ r.amount ≥ threshold then
      let reserve_amount := min r.amount energy_capacity
      let task := Task.TakeFromResource r.id
      if lookup0 l task + reserve_amount ≤ r.amount then
        some (TaskQueueEntry.new task reserve_amount l)
      else droppedEnergyLoop threshold energy_capacity l rest
    else droppedEnergyLoop threshold energy_capacity l rest

/-- The container/storage/terminal withdraw scan shared (textually
duplicated, up to the threshold constant) by the same three role
modules. -/
def structureEnergyLoop (threshold energy_capacity : Nat) (l : Ledger) :
    List StructureInfo → Option (TaskQueueEntry × Ledger)
  | [] => none
  | s :: rest =>
    if s.kind = StructureKind.container ∨ s.kind = StructureKind.storage ∨
        s.kind = StructureKind.terminal then
      let energy_amount := s.storeUsedEnergy
      if energy_amount ≥ threshold then
        let reserve_amount := min energy_amount energy_capacity
        let task := Task.TakeFromStructure s.id ResourceType.Energy
        if lookup0 l task + reserve_amount ≤ energy_amount then
          some (TaskQueueEntry.new task reserve_amount l)
        else structureEnergyLoop threshold energy_capacity l rest
      else structureEnergyLoop threshold energy_capacity l rest
    else structureEnergyLoop threshold energy_capacity l rest

/-- The harvest-source scan of `builder.rs::find_energy_or_source`
(lines 161-176); note the non-strict `<=` in its acceptance guard. -/
def builderSourceLoop (room : Room) (l : Ledger) :
    List SourceInfo → Option (TaskQueueEntry × Ledger)
  | [] => none
  | s :: rest =>
    let hp := harvestPositions room s
    let task := Task.HarvestEnergyUntilFull s.id
    if lookup0 l task ≤ hp then some (TaskQueueEntry.new task 1 l)
    else builderSourceLoop room l rest

/-- The harvest-source scan of `upgrader.rs::find_energy_or_source`
(lines 117-132); note the strict `<` in its acceptance guard. -/
def upgraderSourceLoop (room : Room) (l : Ledger) :
    List SourceInfo → Option (TaskQueueEntry × Ledger)
  | [] => none
  | s :: rest =>
    let hp := harvestPositions room s
    let task := Task.HarvestEnergyUntilFull s.id
    if lookup0 l task < hp then some (TaskQueueEntry.new task 1 l)
    else upgraderSourceLoop room l rest

/-- `builder.rs::find_energy_or_source`. -/
def builderFindEnergyOrSource (room : Room) (energy_capacity : Nat)
    (l : Ledger) (time : Nat) : TaskQueueEntry × Ledger :=
  match droppedEnergyLoop BUILDER_ENERGY_PICKUP_THRESHOLD energy_capacity l
      room.dropped_resources with
  | some r => r
  | none =>
    match structureEnergyLoop BUILDER_ENERGY_WITHDRAW_THRESHOLD energy_capacity l
        room.structures with
    | some r => r
    | none =>
      match builderSourceLoop room l room.sources_active with
      | some r => r
      | none =>
        (TaskQueueEntry.new_unreserved (Task.IdleUntil (time + NO_TASK_IDLE_TICKS)), l)

/-- `upgrader.rs::find_energy_or_source`. -/
def upgraderFindEnergyOrSource (room : Room) (energy_capacity : Nat)
    (l : Ledger) (time : Nat) : TaskQueueEntry × Ledger :=
  match droppedEnergyLoop UPGRADER_ENERGY_PICKUP_THRESHOLD energy_capacity l
      room.dropped_resources with
  | some r => r
  | none =>
    match structureEnergyLoop UPGRADER_ENERGY_WITHDRAW_THRESHOLD energy_capacity l
        room.structures with
    | some r => r
    | none =>
      match upgraderSourceLoop room l room.sources_active with
      | some r => r
      | none =>
        (TaskQueueEntry.new_unreserved (Task.IdleUntil (time + NO_TASK_IDLE_TICKS)), l)

/-- `upgrader.rs::find_upgrade_task`. -/
def find_upgrade_task (room : Room) (l : Ledger) (time : Nat) :
    TaskQueueEntry × Ledger :=
  match room.controller with
  | some cid => TaskQueueEntry.new (Task.Upgrade cid) 1 l
  | none =>
    (TaskQueueEntry.new_unreserved (Task.IdleUntil (time + NO_TASK_IDLE_TICKS)), l)

/-- `hauler.rs::find_energy`. -/
def find_energy (room : Room) (energy_capacity : Nat) (l : Ledger)
    (time : Nat) : TaskQueueEntry × Ledger :=
  match droppedEnergyLoop HAULER_ENERGY_PICKUP_THRESHOLD energy_capacity l
      room.dropped_resources with
  | some r => r
  | none =>
    match structureEnergyLoop HAULER_ENERGY_WITHDRAW_THRESHOLD energy_capacity l
        room.structures with
    | some r => r
    | none =>
      (TaskQueueEntry.new_unreserved (Task.IdleUntil (time + NO_TASK_IDLE_TICKS)), l)

/-- The priority pass of `hauler.rs::find_delivery_target` (lines
134-170): spawns, extensions and towers are delivery candidates; the
last storage and terminal encountered are collected for the later
checks.  `Sum.inl` is the early `return` of the loop; `Sum.inr` carries the
collected `maybe_storage` and `maybe_terminal`. -/
def deliveryPriorityLoop (energy_amount : Nat) (l : Ledger) :
    List StructureInfo → Option StructureInfo → Option StructureInfo →
    Sum (TaskQueueEntry × Ledger) (Option StructureInfo × Option StructureInfo)
  | [], st, tm => Sum.inr (st, tm)
  | s :: rest, st, tm =>
    if s.kind = StructureKind.storage then
      deliveryPriorityLoop energy_amount l rest (some s) tm
    else if s.kind = StructureKind.terminal then
      deliveryPriorityLoop energy_amount l rest st (some s)
    else if s.kind = StructureKind.spawn ∨ s.kind = StructureKind.extension ∨
        s.kind = StructureKind.tower then
      let energy_capacity := clampU32 s.storeFreeEnergy
      if energy_capacity > 0 then
        let reserve_amount := min energy_amount energy_capacity
        let task := Task.DeliverToStructure s.id ResourceType.Energy
        -- source comment: take the job even if it overfills, as long as
        -- not enough energy is already on the way
        if lookup0 l task < energy_capacity then
          Sum.inl (TaskQueueEntry.new task reserve_amount l)
        else deliveryPriorityLoop energy_amount l rest st tm
      else deliveryPriorityLoop energy_amount l rest st tm
    else deliveryPriorityLoop energy_amount l rest st tm

/-- The storage check at the end of `hauler.rs::find_delivery_target`
(lines 194-210), followed by the idle fallback (line 212). -/
def deliveryStorageCheck (energy_amount : Nat) (l : Ledger)
    (maybe_storage : Option StructureInfo) (time : Nat) :
    TaskQueueEntry × Ledger :=
  match maybe_storage with
  | some storage =>
    let energy_capacity := clampU32 storage.storeFreeEnergy
    if energy_capacity > 0 then
      let reserve_amount := min energy_amount energy_capacity
      let task := Task.DeliverToStructure storage.id ResourceType.Energy
      if lookup0 l task + reserve_amount ≤ energy_capacity then
        TaskQueueEntry.new task reserve_amount l
      else
        (TaskQueueEntry.new_unreserved (Task.IdleUntil (time + NO_TASK_IDLE_TICKS)), l)
    else
      (TaskQueueEntry.new_unreserved (Task.IdleUntil (time + NO_TASK_IDLE_TICKS)), l)
  | none =>
    (TaskQueueEntry.new_unreserved (Task.IdleUntil (time + NO_TASK_IDLE_TICKS)), l)

/-- The terminal check of `hauler.rs::find_delivery_target` (lines
173-191), falling through to the storage check. -/
def deliveryTerminalCheck (energy_amount : Nat) (l : Ledger)
    (maybe_terminal maybe_storage : Option StructureInfo) (time : Nat) :
    TaskQueueEntry × Ledger :=
  match maybe_terminal with
  | some terminal =>
    if terminal.storeUsedEnergy < TERMINAL_ENERGY_TARGET then
      let energy_capacity := clampU32 terminal.storeFreeEnergy
      if energy_capacity > 0 then
        let reserve_amount := min energy_amount energy_capacity
        let task := Task.DeliverToStructure terminal.id ResourceType.Energy
        if lookup0 l task + reserve_amount ≤ energy_capacity then
          TaskQueueEntry.new task reserve_amount l
        else deliveryStorageCheck energy_amount l maybe_storage time
      else deliveryStorageCheck energy_amount l maybe_storage time
    else deliveryStorageCheck energy_amount l maybe_storage time
  | none => deliveryStorageCheck energy_amount l maybe_storage time

/-- `hauler.rs::find_delivery_target`. -/
def find_delivery_target (room : Room) (energy_amount : Nat) (l : Ledger)
    (time : Nat) : TaskQueueEntry × Ledger :=
  match deliveryPriorityLoop energy_amount l room.structures none none with
  | Sum.inl r => r
  | Sum.inr (maybe_storage, maybe_terminal) =>
    deliveryTerminalCheck energy_amount l maybe_terminal maybe_storage time

/-- The spawn/extension delivery scan of `startup.rs::find_startup_task`
(lines 67-90); this API revision of the role does not consult the ledger. -/
def startupDeliveryLoop (energy_amount : Nat) :
    List StructureInfo → Option TaskQueueEntry
  | [] => none
  | s :: rest =>
    if s.kind = StructureKind.spawn ∨ s.kind = StructureKind.extension then
      let energy_capacity := clampU32 s.storeFreeEnergy
      if energy_capacity > 0 then
        some (TaskQueueEntry.newNoLedger
          (Task.DeliverToStructure s.id ResourceType.Energy)
          (min energy_amount energy_capacity))
      else startupDeliveryLoop energy_amount rest
    else startupDeliveryLoop energy_amount rest

/-- The repair scan of `startup.rs::find_startup_task` (lines 95-110),
with its hard-coded `10_000` watermark. -/
def startupRepairLoop (energy_amount : Nat) :
    List StructureInfo → Option TaskQueueEntry
  | [] => none
  | s :: rest =>
    if s.hitsMax ≠ 0 ∧ s.hits < 10000 ∧ s.hits * 2 < s.hitsMax then
      some (TaskQueueEntry.newNoLedger (Task.Repair s.id) energy_amount)
    else startupRepairLoop energy_amount rest

/-- `startup.rs::find_startup_task`. -/
def find_startup_task (room : Room) (energy_amount : Nat) (time : Nat) :
    TaskQueueEntry :=
  match startupDeliveryLoop energy_amount room.structures with
  | some r => r
  | none =>
    match startupRepairLoop energy_amount room.structures with
    | some r => r
    | none =>
      match room.construction_sites.head? with
      | some construction_site =>
        TaskQueueEntry.newNoLedger (Task.Build construction_site.id) energy_amount
      | none =>
        match room.controller with
        | some cid => TaskQueueEntry.newNoLedger (Task.Upgrade cid) 1
        | none =>
          TaskQueueEntry.new_unreserved (Task.IdleUntil (time + NO_TASK_IDLE_TICKS))

/-- The dropped-energy pickup scan of
`startup.rs::find_energy_or_source` (lines 135-143; no ledger in this
API revision, and no acceptance guard). -/
def startupDroppedLoop (energy_capacity : Nat) :
    List ResourceInfo → Option TaskQueueEntry
  | [] => none
  | r :: rest =>
    if r.resource_type = ResourceType.Energy ∧
        r.amount ≥ BUILDER_ENERGY_PICKUP_THRESHOLD then
      some (TaskQueueEntry.newNoLedger (Task.TakeFromResource r.id)
        (min r.amount energy_capacity))
    else startupDroppedLoop energy_capacity rest

/-- The structure withdraw scan of `startup.rs::find_energy_or_source`
(lines 147-166). -/
def startupStructureLoop (energy_capacity : Nat) :
    List StructureInfo → Option TaskQueueEntry
  | [] => none
  | s :: rest =>
    if s.kind = StructureKind.container ∨ s.kind = StructureKind.storage ∨
        s.kind = StructureKind.terminal then
      if s.storeUsedEnergy ≥ BUILDER_ENERGY_WITHDRAW_THRESHOLD then
        some (TaskQueueEntry.newNoLedger
          (Task.TakeFromStructure s.id ResourceType.Energy)
          (min s.storeUsedEnergy energy_capacity))
      else startupStructureLoop energy_capacity rest
    else startupStructureLoop energy_capacity rest

/-- `startup.rs::find_energy_or_source`. -/
def startupFindEnergyOrSource (room : Room) (energy_capacity : Nat)
    (time : Nat) : TaskQueueEntry :=
  match startupDroppedLoop energy_capacity room.dropped_resources with
  | some r => r
  | none =>
    match startupStructureLoop energy_capacity room.structures with
    | some r => r
    | none =>
      match room.sources_active.head? with
      | some source =>
        TaskQueueEntry.newNoLedger (Task.HarvestEnergyUntilFull source.id) 1
      | none =>
        TaskQueueEntry.new_unreserved (Task.IdleUntil (time + NO_TASK_IDLE_TICKS))

/-- `SourceHarvester::find_task` from `source_harvester.rs`; the
`look_for(SOURCES)` result is supplied by the world view (`none` models
the `Err` case). -/
def sourceHarvesterFindTask (source_position : Position)
    (look : Option (List Nat)) : TaskQueueEntry :=
  match look with
  | some sources =>
    match sources.head? with
    | some sid => TaskQueueEntry.newNoLedger (Task.HarvestEnergyForever sid) 1
    | none => TaskQueueEntry.new_unreserved (Task.MoveToPosition source_position 1)
  | none => TaskQueueEntry.new_unreserved (Task.MoveToPosition source_position 1)

/-- The per-role data carried by the `Worker` implementations whose
`find_task` is under `src/`. -/
inductive RoleSpec where
  | builder (home_room : Nat) (repair_watermark : Nat)
  | hauler (home_room : Nat) (id : Nat)
  | upgrader (home_room : Nat) (id : Nat)
  | startup (home_room : Nat) (id : Nat)
  | source_harvester (source_position : Position)
  | tower (room : Nat)
deriving DecidableEq, Repr

/-- Whether a role is the tower role (whose `find_task` body is
`unimplemented!()`). -/
def RoleSpec.isTower : RoleSpec → Bool
  | RoleSpec.tower _ => true
  | _ => false

/-- The role-polymorphic `find_task` dispatcher.  Each arm is the
corresponding `Worker::find_task` implementation from `src/role/`.
`none` models a panic: the tower find_task body is an unimplemented-macro panic.
The returned ledger is the (possibly) mutated `task_reservations` map;
role revisions whose `find_task` takes no reservations map
(`startup.rs`, `source_harvester.rs`) pass the ledger through
unchanged. -/
def find_task (role : RoleSpec) (store : Store) (w : World) (l : Ledger) :
    Option (TaskQueueEntry × Ledger) :=
  match role with
  | RoleSpec.builder home_room repair_watermark =>
    some (match w.rooms home_room with
      | some room =>
        let energy_amount := store.usedEnergy
        if energy_amount > 0 then
          find_build_or_repair_task room repair_watermark energy_amount l w.time
        else
          let energy_capacity := clampU32 store.freeEnergy
          if energy_capacity > 0 then
            builderFindEnergyOrSource room energy_capacity l w.time
          else
            (TaskQueueEntry.new_unreserved
              (Task.IdleUntil (w.time + NO_TASK_IDLE_TICKS)), l)
      | none => (TaskQueueEntry.new_unreserved (Task.IdleUntil u32max), l))
  | RoleSpec.hauler home_room _ =>
    some (match w.rooms home_room with
      | some room =>
        let energy_amount := store.usedEnergy
        if energy_amount > 0 then
          find_delivery_target room energy_amount l w.time
        else
          let energy_capacity := clampU32 store.freeEnergy
          if energy_capacity > 0 then
            find_energy room energy_capacity l w.time
          else
            (TaskQueueEntry.new_unreserved
              (Task.IdleUntil (w.time + NO_TASK_IDLE_TICKS)), l)
      | none => (TaskQueueEntry.new_unreserved (Task.IdleUntil u32max), l))
  | RoleSpec.upgrader home_room _ =>
    some (match w.rooms home_room with
      | some room =>
        if store.usedEnergy > 0 then
          find_upgrade_task room l w.time
        else
          let energy_capacity := clampU32 store.freeEnergy
          if energy_capacity > 0 then
            upgraderFindEnergyOrSource room energy_capacity l w.time
          else
            (TaskQueueEntry.new_unreserved (Task.IdleUntil u32max), l)
      | none => (TaskQueueEntry.new_unreserved (Task.IdleUntil u32max), l))
  | RoleSpec.startup home_room _ =>
    some (match w.rooms home_room with
      | some room =>
        let energy_amount := store.usedEnergy
        if energy_amount > 0 then
          (find_startup_task room energy_amount w.time, l)
        else
          let energy_capacity := clampU32 store.freeEnergy
          (startupFindEnergyOrSource room energy_capacity w.time, l)
      | none => (TaskQueueEntry.new_unreserved (Task.IdleUntil u32max), l))
  | RoleSpec.source_harvester source_position =>
    some (sourceHarvesterFindTask source_position (w.lookSources source_position), l)
  | RoleSpec.tower _ => none

/-! ## Shared helper definitions for the theorems -/

/-- A concrete handler set used to instantiate theorems that hold for
every handler behaviour. -/
def trivialHandlers : TaskHandlers where
  harvest_energy_until_full := fun _ _ _ => TaskResult.Complete
  harvest_energy_forever := fun _ _ _ => TaskResult.Complete
  build := fun _ _ _ => TaskResult.Complete
  repair := fun _ _ _ => TaskResult.Complete
  upgrade := fun _ _ _ => TaskResult.Complete
  take_from_resource := fun _ _ _ => TaskResult.Complete
  take_from_structure := fun _ _ _ _ => TaskResult.Complete
  deliver_to_structure := fun _ _ _ _ => TaskResult.Complete
  spawn_creep := fun _ _ => TaskResult.Complete
  wait_to_spawn := fun _ => TaskResult.Complete

/-- Replaying a sequence of claim operations from a starting ledger. -/
def claimAll (l : Ledger) (ops : List (Task × Nat)) : Ledger :=
  ops.foldl (fun m op => add_reservation_with_amount m op.1 op.2) l

/-- A single claim with a strictly positive amount preserves strict
positivity of every ledger value. -/
theorem add_reservation_pos_preserved (m : Ledger) (t : Task) (a : Nat)
    (ha : 0 < a) (hm : ∀ p ∈ m, 0 < p.2) :
    ∀ p ∈ add_reservation_with_amount m t a, 0 < p.2 := by
  induction m with
  | nil =>
    intro p hp
    simp only [add_reservation_with_amount, List.mem_singleton] at hp
    subst hp
    exact ha
  | cons q rest ih =>
    obtain ⟨k, v⟩ := q
    intro p hp
    by_cases hk : k = t
    · simp only [add_reservation_with_amount, if_pos hk, List.mem_cons] at hp
      rcases hp with hp | hp
      · subst hp
        have hv : 0 < v := hm (k, v) (List.mem_cons_self _ _)
        simp only [satAdd, u32max]
        omega
      · exact hm p (List.mem_cons_of_mem _ hp)
    · simp only [add_reservation_with_amount, if_neg hk, List.mem_cons] at hp
      rcases hp with hp | hp
      · subst hp
        exact hm (k, v) (List.mem_cons_self _ _)
      · exact ih (fun q hq => hm q (List.mem_cons_of_mem _ hq)) p hp

/-- Replaying positive-amount claims from a positive-valued ledger keeps
every value strictly positive. -/
theorem claimAll_pos_preserved (ops : List (Task × Nat)) :
    ∀ l : Ledger, (∀ op ∈ ops, 0 < op.2) → (∀ p ∈ l, 0 < p.2) →
    ∀ p ∈ claimAll l ops, 0 < p.2 := by
  induction ops with
  | nil => intro l _ hl p hp; exact hl p hp
  | cons op rest ih =>
    intro l hops hl p hp
    have hop : 0 < op.2 := hops op (List.mem_cons_self _ _)
    have hrest : ∀ o ∈ rest, 0 < o.2 := fun o ho => hops o (List.mem_cons_of_mem _ ho)
    exact ih (add_reservation_with_amount l op.1 op.2) hrest
      (add_reservation_pos_preserved l op.1 op.2 hop hl) p hp

/-- The claimed amount of the claimed identity after
`add_reservation_with_amount` is the saturating sum. -/
theorem lookup0_add_self (m : Ledger) (t : Task) (a : Nat) (ha : a ≤ u32max) :
    lookup0 (add_reservation_with_amount m t a) t
      = min (lookup0 m t + a) u32max := by
  induction m with
  | nil =>
    simp [add_reservation_with_amount, lookup0]
    omega
  | cons q rest ih =>
    obtain ⟨k, v⟩ := q
    by_cases hk : k = t
    · subst hk
      simp [add_reservation_with_amount, lookup0, satAdd]
    · simp [add_reservation_with_amount, lookup0, hk, ih]

/-- `add_reservation_with_amount` leaves every other identity unchanged. -/
theorem lookup0_add_other (m : Ledger) (t u : Task) (a : Nat) (hu : u ≠ t) :
    lookup0 (add_reservation_with_amount m t a) u = lookup0 m u := by
  induction m with
  | nil => simp [add_reservation_with_amount, lookup0, Ne.symm hu]
  | cons q rest ih =>
    obtain ⟨k, v⟩ := q
    by_cases hk : k = t
    · subst hk
      simp [add_reservation_with_amount, lookup0, Ne.symm hu]
    · by_cases hku : k = u
      · subst hku
        simp [add_reservation_with_amount, lookup0, hk]
      · simp [add_reservation_with_amount, lookup0, hk, hku, ih]

/-! ## Acceptance predicates and first-fit characterizations

Each scan loop accepts the first candidate satisfying its guard; the
predicates below mirror the guards, and the lemmas identify each loop
with a `List.find?`. -/

/-- The guard of the dropped-energy pickup scan. -/
def pickupAccepts (threshold energy_capacity : Nat) (l : Ledger)
    (r : ResourceInfo) : Bool :=
  if r.resource_type = ResourceType.Energy ∧ r.amount ≥ threshold then
    if lookup0 l (Task.TakeFromResource r.id) + min r.amount energy_capacity
        ≤ r.amount then true else false
  else false

/-- The guard of the container/storage/terminal withdraw scan. -/
def withdrawAccepts (threshold energy_capacity : Nat) (l : Ledger)
    (s : StructureInfo) : Bool :=
  if s.kind = StructureKind.container ∨ s.kind = StructureKind.storage ∨
      s.kind = StructureKind.terminal then
    if s.storeUsedEnergy ≥ threshold then
      if lookup0 l (Task.TakeFromStructure s.id ResourceType.Energy)
          + min s.storeUsedEnergy energy_capacity ≤ s.storeUsedEnergy then
        true
      else false
    else false
  else false

/-- The guard of the builder repair scan. -/
def repairAccepts (repair_watermark : Nat) (l : Ledger)
    (s : StructureInfo) : Bool :=
  if s.hitsMax ≠ 0 ∧ s.hits < repair_watermark ∧ s.hits * 2 < s.hitsMax then
    if lookup0 l (Task.Repair s.id)
        < (min repair_watermark s.hitsMax - s.hits) / REPAIR_POWER then
      true
    else false
  else false

/-- The guard of the builder construction scan. -/
def buildAccepts (l : Ledger) (c : ConstructionSiteInfo) : Bool :=
  if lookup0 l (Task.Build c.id)
      < (c.progress_total - c.progress) / BUILD_POWER then true else false

/-- The guard of the builder harvest scan (non-strict comparison). -/
def builderSourceAccepts (room : Room) (l : Ledger) (s : SourceInfo) : Bool :=
  if lookup0 l (Task.HarvestEnergyUntilFull s.id) ≤ harvestPositions room s then
    true
  else false

/-- The guard of the upgrader harvest scan (strict comparison). -/
def upgraderSourceAccepts (room : Room) (l : Ledger) (s : SourceInfo) : Bool :=
  if lookup0 l (Task.HarvestEnergyUntilFull s.id) < harvestPositions room s then
    true
  else false

/-- The guard of the hauler priority delivery scan (spawns, extensions,
towers; overfill permitted by design). -/
def deliveryAccepts (l : Ledger) (s : StructureInfo) : Bool :=
  if s.kind = StructureKind.spawn ∨ s.kind = StructureKind.extension ∨
      s.kind = StructureKind.tower then
    if clampU32 s.storeFreeEnergy > 0 then
      if lookup0 l (Task.DeliverToStructure s.id ResourceType.Energy)
          < clampU32 s.storeFreeEnergy then true
      else false
    else false
  else false

/-- The dropped-energy scan is a first-fit over its guard. -/
theorem droppedEnergyLoop_eq_find (threshold cap : Nat) (l : Ledger)
    (rs : List ResourceInfo) :
    droppedEnergyLoop threshold cap l rs
      = (rs.find? (pickupAccepts threshold cap l)).map
          (fun r => TaskQueueEntry.new (Task.TakeFromResource r.id)
            (min r.amount cap) l) := by
  induction rs with
  | nil => rfl
  | cons r rest ih =>
    by_cases h1 : r.resource_type = ResourceType.Energy ∧ r.amount ≥ threshold
    · by_cases h2 : lookup0 l (Task.TakeFromResource r.id) + min r.amount cap
          ≤ r.amount
      · simp [droppedEnergyLoop, pickupAccepts, h1, h2]
      · simp [droppedEnergyLoop, pickupAccepts, h1, h2, ih]
    · simp [droppedEnergyLoop, pickupAccepts, h1, ih]

/-- The withdraw scan is a first-fit over its guard. -/
theorem structureEnergyLoop_eq_find (threshold cap : Nat) (l : Ledger)
    (ss : List StructureInfo) :
    structureEnergyLoop threshold cap l ss
      = (ss.find? (withdrawAccepts threshold cap l)).map
          (fun s => TaskQueueEntry.new
            (Task.TakeFromStructure s.id ResourceType.Energy)
            (min s.storeUsedEnergy cap) l) := by
  induction ss with
  | nil => rfl
  | cons s rest ih =>
    by_cases h1 : s.kind = StructureKind.container ∨
        s.kind = StructureKind.storage ∨ s.kind = StructureKind.terminal
    · by_cases h2 : s.storeUsedEnergy ≥ threshold
      · by_cases h3 : lookup0 l (Task.TakeFromStructure s.id ResourceType.Energy)
            + min s.storeUsedEnergy cap ≤ s.storeUsedEnergy
        · simp [structureEnergyLoop, withdrawAccepts, h1, h2, h3]
        · simp [structureEnergyLoop, withdrawAccepts, h1, h2, h3, ih]
      · simp [structureEnergyLoop, withdrawAccepts, h1, h2, ih]
    · simp [structureEnergyLoop, withdrawAccepts, h1, ih]

/-- The repair scan is a first-fit over its guard. -/
theorem repairLoop_eq_find (wm ea : Nat) (l : Ledger)
    (ss : List StructureInfo) :
    repairLoop wm ea l ss
      = (ss.find? (repairAccepts wm l)).map
          (fun s => TaskQueueEntry.new (Task.Repair s.id) ea l) := by
  induction ss with
  | nil => rfl
  | cons s rest ih =>
    by_cases h1 : s.hitsMax ≠ 0 ∧ s.hits < wm ∧ s.hits * 2 < s.hitsMax
    · by_cases h2 : lookup0 l (Task.Repair s.id)
          < (min wm s.hitsMax - s.hits) / REPAIR_POWER
      · simp [repairLoop, repairAccepts, h1, h2]
      · simp [repairLoop, repairAccepts, h1, h2, ih]
    · simp [repairLoop, repairAccepts, h1, ih]

/-- The construction scan is a first-fit over its guard. -/
theorem buildLoop_eq_find (ea : Nat) (l : Ledger)
    (cs : List ConstructionSiteInfo) :
    buildLoop ea l cs
      = (cs.find? (buildAccepts l)).map
          (fun c => TaskQueueEntry.new (Task.Build c.id) ea l) := by
  induction cs with
  | nil => rfl
  | cons c rest ih =>
    by_cases h : lookup0 l (Task.Build c.id)
        < (c.progress_total - c.progress) / BUILD_POWER
    · simp [buildLoop, buildAccepts, h]
    · simp [buildLoop, buildAccepts, h, ih]

/-- The builder harvest scan is a first-fit over its guard. -/
theorem builderSourceLoop_eq_find (room : Room) (l : Ledger)
    (ss : List SourceInfo) :
    builderSourceLoop room l ss
      = (ss.find? (builderSourceAccepts room l)).map
          (fun s => TaskQueueEntry.new (Task.HarvestEnergyUntilFull s.id) 1 l) := by
  induction ss with
  | nil => rfl
  | cons s rest ih =>
    by_cases h : lookup0 l (Task.HarvestEnergyUntilFull s.id)
        ≤ harvestPositions room s
    · simp [builderSourceLoop, builderSourceAccepts, h]
    · simp [builderSourceLoop, builderSourceAccepts, h, ih]

/-- The upgrader harvest scan is a first-fit over its guard. -/
theorem upgraderSourceLoop_eq_find (room : Room) (l : Ledger)
    (ss : List SourceInfo) :
    upgraderSourceLoop room l ss
      = (ss.find? (upgraderSourceAccepts room l)).map
          (fun s => TaskQueueEntry.new (Task.HarvestEnergyUntilFull s.id) 1 l) := by
  induction ss with
  | nil => rfl
  | cons s rest ih =>
    by_cases h : lookup0 l (Task.HarvestEnergyUntilFull s.id)
        < harvestPositions room s
    · simp [upgraderSourceLoop, upgraderSourceAccepts, h]
    · simp [upgraderSourceLoop, upgraderSourceAccepts, h, ih]

/-- The post-claim amount never exceeds the pre-claim amount plus the
claimed amount (saturation only lowers it). -/
theorem lookup0_add_le (m : Ledger) (t : Task) (a : Nat) :
    lookup0 (add_reservation_with_amount m t a) t ≤ lookup0 m t + a := by
  induction m with
  | nil => simp [add_reservation_with_amount, lookup0]
  | cons q rest ih =>
    obtain ⟨k, v⟩ := q
    by_cases hk : k = t
    · subst hk
      simp [add_reservation_with_amount, lookup0, satAdd]
    · simp [add_reservation_with_amount, lookup0, hk, ih]

/-- Unfolding of the pickup guard. -/
theorem pickupAccepts_iff (threshold cap : Nat) (l : Ledger)
    (r : ResourceInfo) :
    pickupAccepts threshold cap l r = true ↔
      (r.resource_type = ResourceType.Energy ∧ r.amount ≥ threshold) ∧
      lookup0 l (Task.TakeFromResource r.id) + min r.amount cap ≤ r.amount := by
  unfold pickupAccepts
  split
  · split <;> simp_all
  · simp_all

/-- Unfolding of the withdraw guard. -/
theorem withdrawAccepts_iff (threshold cap : Nat) (l : Ledger)
    (s : StructureInfo) :
    withdrawAccepts threshold cap l s = true ↔
      (s.kind = StructureKind.container ∨ s.kind = StructureKind.storage ∨
        s.kind = StructureKind.terminal) ∧
      s.storeUsedEnergy ≥ threshold ∧
      lookup0 l (Task.TakeFromStructure s.id ResourceType.Energy)
        + min s.storeUsedEnergy cap ≤ s.storeUsedEnergy := by
  unfold withdrawAccepts
  split
  · split
    · split <;> simp_all
    · simp_all
  · simp_all

/-- Unfolding of the upgrader harvest guard. -/
theorem upgraderSourceAccepts_iff (room : Room) (l : Ledger)
    (s : SourceInfo) :
    upgraderSourceAccepts room l s = true ↔
      lookup0 l (Task.HarvestEnergyUntilFull s.id) < harvestPositions room s := by
  unfold upgraderSourceAccepts
  split <;> simp_all

/-! ## Claim theorems -/

/-- C2: for every ledger map, task identity and amount,
`add_reservation_with_amount` (the claim operation) sets the entry for
that identity to its previous value saturating-added with the amount
(`min (old + amount) u32max`), inserting the entry if it was absent,
never panicking or wrapping, and leaves every other identity unchanged. -/
theorem claim_saturating_semantics (m : Ledger) (t : Task) (a : Nat)
    (ha : a ≤ u32max) :
    lookup0 (add_reservation_with_amount m t a) t
        = min (lookup0 m t + a) u32max ∧
    ∀ u : Task, u ≠ t →
      lookup0 (add_reservation_with_amount m t a) u = lookup0 m u :=
  ⟨lookup0_add_self m t a ha, fun u hu => lookup0_add_other m t u a hu⟩

/-- Witness for C2 at a concrete ledger: claiming 7 on an identity
holding 3 yields 10, and a different identity is untouched. -/
theorem claim_saturating_semantics_witness :
    lookup0 (add_reservation_with_amount [(Task.WaitToSpawn, 3)] Task.WaitToSpawn 7)
        Task.WaitToSpawn
      = min (lookup0 [(Task.WaitToSpawn, 3)] Task.WaitToSpawn + 7) u32max ∧
    ∀ u : Task, u ≠ Task.WaitToSpawn →
      lookup0 (add_reservation_with_amount [(Task.WaitToSpawn, 3)] Task.WaitToSpawn 7) u
        = lookup0 [(Task.WaitToSpawn, 3)] u :=
  claim_saturating_semantics [(Task.WaitToSpawn, 3)] Task.WaitToSpawn 7 (by decide)

/-- C3 counterexample: a claim of amount 0 on an absent identity
(`or_insert(amount)` in `add_reservation_with_amount`) inserts a
zero-valued entry, so a ledger reachable by claim operations can contain
an identity whose claimed amount is not strictly positive. -/
theorem zero_claim_inserts_zero_entry :
    add_reservation_with_amount [] Task.WaitToSpawn 0 = [(Task.WaitToSpawn, 0)] ∧
    (add_reservation_with_amount [] Task.WaitToSpawn 0).all
        (fun p => p.2 != 0) = false := by
  decide

/-- C3 amended: every ledger state reachable from the empty map by claim
operations with strictly positive amounts has a strictly positive
claimed amount for every identity present; a claim with amount 0 on an
absent identity, however, inserts a zero-valued entry. -/
theorem positive_claims_keep_entries_positive (ops : List (Task × Nat))
    (hpos : ∀ op ∈ ops, 0 < op.2) :
    ∀ p ∈ claimAll [] ops, 0 < p.2 :=
  claimAll_pos_preserved ops [] hpos (by simp)

/-- Witness for the amended C3: after the positive claim sequence
`[(WaitToSpawn, 2), (IdleUntil 3, 1), (WaitToSpawn, 5)]` the resulting
entry `(WaitToSpawn, 7)` has a strictly positive amount. -/
theorem positive_claims_keep_entries_positive_witness :
    0 < (Prod.mk Task.WaitToSpawn 7).2 :=
  positive_claims_keep_entries_positive
    [(Task.WaitToSpawn, 2), (Task.IdleUntil 3, 1), (Task.WaitToSpawn, 5)]
    (by decide) (Task.WaitToSpawn, 7) (by decide)

/-- C6: `run_task` on `IdleUntil(tick)` returns `Complete` exactly when
the game time has reached `tick` and `StillWorking` otherwise; on
`MoveToPosition(pos, range)` it returns `Complete` exactly when the
range to `pos` is at most `range` and otherwise a movement request
toward `pos`; no other result variant is possible for these two kinds,
for every handler set. -/
theorem run_task_idle_and_move_characterized (h : TaskHandlers)
    (worker : WorkerReference) (profile : MovementProfile)
    (time tick : Nat) (pos : Position) (range : Nat) :
    Task.run_task h (Task.IdleUntil tick) worker profile time
      = (if time ≥ tick then TaskResult.Complete else TaskResult.StillWorking) ∧
    Task.run_task h (Task.MoveToPosition pos range) worker profile time
      = (if worker.pos.get_range_to pos ≤ range then TaskResult.Complete
         else TaskResult.MoveMeTo ⟨pos, range, profile, false⟩) :=
  ⟨rfl, rfl⟩

/-- C10: whenever the agent is out of range of a
`MoveToPosition(pos, range)` task, the emitted `MovementGoal` has
exactly the task position as target, the task range as acceptance
range, the caller-supplied movement profile, and `avoid_creeps` false. -/
theorem move_to_position_goal_fields (h : TaskHandlers)
    (worker : WorkerReference) (profile : MovementProfile) (time : Nat)
    (pos : Position) (range : Nat)
    (hout : range < worker.pos.get_range_to pos) :
    Task.run_task h (Task.MoveToPosition pos range) worker profile time
      = TaskResult.MoveMeTo ⟨pos, range, profile, false⟩ := by
  have hn : ¬ worker.pos.get_range_to pos ≤ range := by omega
  simp [Task.run_task, hn]

/-- Witness for C10: an agent at the origin, two steps away from the
target of a range-1 move task, is sent a movement goal with the task
fields and `avoid_creeps := false`. -/
theorem move_to_position_goal_fields_witness :
    Task.run_task trivialHandlers (Task.MoveToPosition ⟨2, 2⟩ 1) ⟨⟨0, 0⟩⟩ 0 0
      = TaskResult.MoveMeTo ⟨⟨2, 2⟩, 1, 0, false⟩ :=
  move_to_position_goal_fields trivialHandlers ⟨⟨0, 0⟩⟩ 0 0 ⟨2, 2⟩ 1 (by decide)

/-- A world with no visible rooms and no look results. -/
def emptyWorld : World where
  rooms := fun _ => none
  time := 0
  lookSources := fun _ => none

/-- A store with no energy and no free capacity. -/
def emptyStore : Store := ⟨0, 0⟩

/-- C4 counterexample: the tower role never returns a task entry — its
`find_task` body is `unimplemented!()`, which panics (modelled as
`none`), so proposal totality fails for the Tower implementation. -/
theorem tower_find_task_panics :
    find_task (RoleSpec.tower 0) emptyStore emptyWorld [] = none := rfl

/-- C4 amended: for every non-tower role (Builder, Hauler, Upgrader,
Startup, SourceHarvester) and every input, `find_task` returns exactly
one entry and never fails to return; the Tower implementation instead
panics via `unimplemented!()`. -/
theorem find_task_total_except_tower (role : RoleSpec) (store : Store)
    (w : World) (l : Ledger) (h : role.isTower = false) :
    (find_task role store w l).isSome = true := by
  cases role <;> simp_all [find_task, RoleSpec.isTower]

/-- Witness for the amended C4 at a concrete builder input. -/
theorem find_task_total_except_tower_witness :
    (find_task (RoleSpec.builder 0 10000) emptyStore emptyWorld []).isSome = true :=
  find_task_total_except_tower (RoleSpec.builder 0 10000) emptyStore emptyWorld []
    (by decide)

/-- C7 counterexample: a source harvester whose operating room is not
visible (the `look_for` query fails) returns an unreserved
move-to-position task, not the indefinite idle task `IdleUntil(u32::MAX)`
the claim requires of every role. -/
theorem source_harvester_no_visibility_moves :
    find_task (RoleSpec.source_harvester ⟨10, 20⟩) emptyStore emptyWorld []
      = some (TaskQueueEntry.new_unreserved (Task.MoveToPosition ⟨10, 20⟩ 1), []) ∧
    TaskQueueEntry.new_unreserved (Task.MoveToPosition ⟨10, 20⟩ 1)
      ≠ TaskQueueEntry.new_unreserved (Task.IdleUntil u32max) := by
  exact ⟨rfl, by decide⟩

/-- C7 amended: every role with a home room field (Builder, Hauler,
Upgrader, Startup) returns the unreserved indefinite idle entry
`IdleUntil(u32::MAX)` with the ledger untouched when its home room is
not visible; the SourceHarvester instead emits an unreserved
move-to-source task, and the Tower panics. -/
theorem home_room_invisible_idles (home_room wm idv : Nat) (store : Store)
    (w : World) (l : Ledger) (h : w.rooms home_room = none) :
    find_task (RoleSpec.builder home_room wm) store w l
      = some (TaskQueueEntry.new_unreserved (Task.IdleUntil u32max), l) ∧
    find_task (RoleSpec.hauler home_room idv) store w l
      = some (TaskQueueEntry.new_unreserved (Task.IdleUntil u32max), l) ∧
    find_task (RoleSpec.upgrader home_room idv) store w l
      = some (TaskQueueEntry.new_unreserved (Task.IdleUntil u32max), l) ∧
    find_task (RoleSpec.startup home_room idv) store w l
      = some (TaskQueueEntry.new_unreserved (Task.IdleUntil u32max), l) := by
  refine ⟨?_, ?_, ?_, ?_⟩ <;> simp [find_task, h]

/-- A room holding a single 100-energy dropped pile (id 7) and nothing
else. -/
def pileRoom : Room where
  structures := []
  construction_sites := []
  dropped_resources := [⟨7, ResourceType.Energy, 100⟩]
  sources_active := []
  controller := none
  terrainIsWall := fun _ _ => false

/-- C5 counterexample: with 60 already claimed on a 100-energy pile and
an agent of capacity 50, the scan computes `min(pile total, capacity) =
50` (not the remaining need 40), rejects the pile because `60 + 50 >
100`, and falls through to the idle fallback — although the already
claimed amount plus the remaining-need-bounded claim `min(50, 100-60) =
40` would not exceed the pile total, so the claim as stated (amount
bounded by remaining need, acceptance exactly when it fits) is false
here. -/
theorem remaining_need_not_used :
    (find_energy pileRoom 50 [(Task.TakeFromResource 7, 60)] 0).1
      = TaskQueueEntry.new_unreserved (Task.IdleUntil (0 + NO_TASK_IDLE_TICKS)) ∧
    60 + min 50 (100 - 60) ≤ 100 := by
  decide

/-- C5 amended: for each scanned candidate the claimed amount is the
agent capacity capped by the target's TOTAL amount (`min(total,
capacity)`, not reduced by prior claims), and the first candidate whose
already-claimed ledger amount plus this amount does not exceed the total
amount is accepted (registering the claim); all earlier candidates are
skipped; this holds for the dropped-resource pickup scans and the
structure withdraw scans of builder, hauler and upgrader. -/
theorem scan_is_first_fit_on_total :
    (∀ threshold cap l rs,
      droppedEnergyLoop threshold cap l rs
        = (rs.find? (pickupAccepts threshold cap l)).map
            (fun r => TaskQueueEntry.new (Task.TakeFromResource r.id)
              (min r.amount cap) l)) ∧
    (∀ threshold cap l ss,
      structureEnergyLoop threshold cap l ss
        = (ss.find? (withdrawAccepts threshold cap l)).map
            (fun s => TaskQueueEntry.new
              (Task.TakeFromStructure s.id ResourceType.Energy)
              (min s.storeUsedEnergy cap) l)) :=
  ⟨droppedEnergyLoop_eq_find, structureEnergyLoop_eq_find⟩

/-- A repairable structure (id 1): 100 of 100000 hit points, store
empty. -/
def repairRoom : Room where
  structures := [⟨1, StructureKind.other, 100, 100000, 0, 0⟩]
  construction_sites := []
  dropped_resources := []
  sources_active := []
  controller := none
  terrainIsWall := fun _ _ => false

/-- C1 counterexample: with a repair watermark of 10000 the structure
of `repairRoom` needs `(10000 - 100) / REPAIR_POWER = 99` repair energy,
yet two successive builder proposals against the same snapshot (energy
98 and 50) both accept it — the guard only compares the pre-accept claim
to the need — leaving 148 claimed, which exceeds the declared need of
99. -/
theorem repair_over_claim :
    lookup0 (find_build_or_repair_task repairRoom 10000 50
        (find_build_or_repair_task repairRoom 10000 98 [] 0).2 0).2
      (Task.Repair 1) = 148 ∧
    (min 10000 100000 - 100) / REPAIR_POWER = 99 ∧ 99 < 148 := by
  decide

/-- C1 amended: the no-over-claim bound holds for the targets whose
guard adds the prospective claim before comparing — dropped-resource
pickup (bounded by the pile amount), structure withdraw (bounded by the
stored amount), the upgrader harvest scan (bounded by the non-wall
adjacent position count), and the hauler storage and terminal delivery
checks (bounded by free capacity); the repair, build, builder-harvest
and spawn/extension/tower delivery guards only require the pre-accept
claim to be below (for builder harvest: at most) the need, so their
post-accept totals can exceed it. -/
theorem accepted_claim_bounds :
    (∀ threshold cap (l : Ledger) rs e l1,
      droppedEnergyLoop threshold cap l rs = some (e, l1) →
      ∃ r ∈ rs, e.task = Task.TakeFromResource r.id ∧
        lookup0 l1 e.task ≤ r.amount) ∧
    (∀ threshold cap (l : Ledger) ss e l1,
      structureEnergyLoop threshold cap l ss = some (e, l1) →
      ∃ s ∈ ss, e.task = Task.TakeFromStructure s.id ResourceType.Energy ∧
        lookup0 l1 e.task ≤ s.storeUsedEnergy) ∧
    (∀ room (l : Ledger) ss e l1,
      upgraderSourceLoop room l ss = some (e, l1) →
      ∃ s ∈ ss, e.task = Task.HarvestEnergyUntilFull s.id ∧
        lookup0 l1 e.task ≤ harvestPositions room s) ∧
    (∀ ea (l : Ledger) st time e l1,
      deliveryStorageCheck ea l (some st) time = (e, l1) → e.amount ≠ 0 →
      e.task = Task.DeliverToStructure st.id ResourceType.Energy ∧
        lookup0 l1 e.task ≤ clampU32 st.storeFreeEnergy) ∧
    (∀ ea (l : Ledger) tm ms time e l1,
      deliveryTerminalCheck ea l (some tm) ms time = (e, l1) → e.amount ≠ 0 →
      (e.task = Task.DeliverToStructure tm.id ResourceType.Energy ∧
        lookup0 l1 e.task ≤ clampU32 tm.storeFreeEnergy) ∨
      deliveryStorageCheck ea l ms time = (e, l1)) := by
  refine ⟨?_, ?_, ?_, ?_, ?_⟩
  · intro threshold cap l rs e l1 h
    rw [droppedEnergyLoop_eq_find, Option.map_eq_some'] at h
    obtain ⟨r, hfind, hval⟩ := h
    have hmem : r ∈ rs := List.mem_of_find?_eq_some hfind
    have hacc := List.find?_some hfind
    rw [pickupAccepts_iff] at hacc
    unfold TaskQueueEntry.new at hval
    rw [Prod.ext_iff] at hval
    obtain ⟨he, hl⟩ := hval
    subst he
    subst hl
    exact ⟨r, hmem, rfl, le_trans (lookup0_add_le l _ _) hacc.2⟩
  · intro threshold cap l ss e l1 h
    rw [structureEnergyLoop_eq_find, Option.map_eq_some'] at h
    obtain ⟨s, hfind, hval⟩ := h
    have hmem : s ∈ ss := List.mem_of_find?_eq_some hfind
    have hacc := List.find?_some hfind
    rw [withdrawAccepts_iff] at hacc
    unfold TaskQueueEntry.new at hval
    rw [Prod.ext_iff] at hval
    obtain ⟨he, hl⟩ := hval
    subst he
    subst hl
    exact ⟨s, hmem, rfl, le_trans (lookup0_add_le l _ _) hacc.2.2⟩
  · intro room l ss e l1 h
    rw [upgraderSourceLoop_eq_find, Option.map_eq_some'] at h
    obtain ⟨s, hfind, hval⟩ := h
    have hmem : s ∈ ss := List.mem_of_find?_eq_some hfind
    have hacc := List.find?_some hfind
    rw [upgraderSourceAccepts_iff] at hacc
    unfold TaskQueueEntry.new at hval
    rw [Prod.ext_iff] at hval
    obtain ⟨he, hl⟩ := hval
    subst he
    subst hl
    exact ⟨s, hmem, rfl, le_trans (lookup0_add_le l _ _) (by omega)⟩
  · intro ea l st time e l1 h hne
    simp only [deliveryStorageCheck] at h
    split at h
    · split at h
      · next hacc =>
        unfold TaskQueueEntry.new at h
        rw [Prod.ext_iff] at h
        obtain ⟨he, hl⟩ := h
        subst he
        subst hl
        exact ⟨rfl, le_trans (lookup0_add_le l _ _) hacc⟩
      · rw [Prod.ext_iff] at h
        obtain ⟨he, -⟩ := h
        subst he
        simp [TaskQueueEntry.new_unreserved] at hne
    · rw [Prod.ext_iff] at h
      obtain ⟨he, -⟩ := h
      subst he
      simp [TaskQueueEntry.new_unreserved] at hne
  · intro ea l tm ms time e l1 h hne
    simp only [deliveryTerminalCheck] at h
    split at h
    · split at h
      · split at h
        · next hacc =>
          unfold TaskQueueEntry.new at h
          rw [Prod.ext_iff] at h
          obtain ⟨he, hl⟩ := h
          subst he
          subst hl
          exact Or.inl ⟨rfl, le_trans (lookup0_add_le l _ _) hacc⟩
        · exact Or.inr h
      · exact Or.inr h
    · exact Or.inr h

/-- Witness for the amended C1: the pickup bound at a concrete
single-pile scan. -/
theorem accepted_claim_bounds_witness :
    ∃ r ∈ [ResourceInfo.mk 7 ResourceType.Energy 100],
      (TaskQueueEntry.mk (Task.TakeFromResource 7) 50).task
        = Task.TakeFromResource r.id ∧
      lookup0 [(Task.TakeFromResource 7, 50)]
        (TaskQueueEntry.mk (Task.TakeFromResource 7) 50).task ≤ r.amount :=
  accepted_claim_bounds.1 35 50 [] [⟨7, ResourceType.Energy, 100⟩]
    ⟨Task.TakeFromResource 7, 50⟩ [(Task.TakeFromResource 7, 50)] (by decide)

/-- Witness for the amended C7 at a concrete invisible-room world. -/
theorem home_room_invisible_idles_witness :
    find_task (RoleSpec.builder 3 10000) emptyStore emptyWorld []
      = some (TaskQueueEntry.new_unreserved (Task.IdleUntil u32max), []) ∧
    find_task (RoleSpec.hauler 3 1) emptyStore emptyWorld []
      = some (TaskQueueEntry.new_unreserved (Task.IdleUntil u32max), []) ∧
    find_task (RoleSpec.upgrader 3 1) emptyStore emptyWorld []
      = some (TaskQueueEntry.new_unreserved (Task.IdleUntil u32max), []) ∧
    find_task (RoleSpec.startup 3 1) emptyStore emptyWorld []
      = some (TaskQueueEntry.new_unreserved (Task.IdleUntil u32max), []) :=
  home_room_invisible_idles 3 10000 1 emptyStore emptyWorld [] rfl

/-- The rejection condition of the hauler terminal delivery check:
`true` when the check falls through to the storage check. -/
def terminalRejects (ea : Nat) (l : Ledger) : Option StructureInfo → Bool
  | none => true
  | some tm =>
    if tm.storeUsedEnergy < TERMINAL_ENERGY_TARGET then
      if clampU32 tm.storeFreeEnergy > 0 then
        if lookup0 l (Task.DeliverToStructure tm.id ResourceType.Energy)
            + min ea (clampU32 tm.storeFreeEnergy)
            ≤ clampU32 tm.storeFreeEnergy then false
        else true
      else true
    else true

/-- The rejection condition of the hauler storage delivery check:
`true` when the check falls through to the idle fallback. -/
def storageRejects (ea : Nat) (l : Ledger) : Option StructureInfo → Bool
  | none => true
  | some st =>
    if clampU32 st.storeFreeEnergy > 0 then
      if lookup0 l (Task.DeliverToStructure st.id ResourceType.Energy)
          + min ea (clampU32 st.storeFreeEnergy)
          ≤ clampU32 st.storeFreeEnergy then false
      else true
    else true

/-- A rejected storage check yields exactly the unreserved idle backoff
entry with the ledger untouched. -/
theorem deliveryStorageCheck_of_rejects (ea : Nat) (l : Ledger)
    (ms : Option StructureInfo) (time : Nat)
    (h : storageRejects ea l ms = true) :
    deliveryStorageCheck ea l ms time
      = (TaskQueueEntry.new_unreserved
          (Task.IdleUntil (time + NO_TASK_IDLE_TICKS)), l) := by
  cases ms with
  | none => rfl
  | some st =>
    by_cases hcap : clampU32 st.storeFreeEnergy > 0
    · by_cases hg : lookup0 l (Task.DeliverToStructure st.id ResourceType.Energy)
          + min ea (clampU32 st.storeFreeEnergy) ≤ clampU32 st.storeFreeEnergy
      · simp [storageRejects, hcap, hg] at h
      · simp [deliveryStorageCheck, hcap, hg]
    · simp [deliveryStorageCheck, hcap]

/-- A rejected terminal check falls through to the storage check. -/
theorem deliveryTerminalCheck_of_rejects (ea : Nat) (l : Ledger)
    (mt ms : Option StructureInfo) (time : Nat)
    (h : terminalRejects ea l mt = true) :
    deliveryTerminalCheck ea l mt ms time
      = deliveryStorageCheck ea l ms time := by
  cases mt with
  | none => rfl
  | some tm =>
    by_cases h1 : tm.storeUsedEnergy < TERMINAL_ENERGY_TARGET
    · by_cases h2 : clampU32 tm.storeFreeEnergy > 0
      · by_cases h3 : lookup0 l (Task.DeliverToStructure tm.id ResourceType.Energy)
            + min ea (clampU32 tm.storeFreeEnergy) ≤ clampU32 tm.storeFreeEnergy
        · simp [terminalRejects, h1, h2, h3] at h
        · simp [deliveryTerminalCheck, h1, h2, h3]
      · simp [deliveryTerminalCheck, h1, h2]
    · simp [deliveryTerminalCheck, h1]

/-- A world that resolves no rooms but reports an empty source list at
every looked-up position. -/
def noSourceWorld : World where
  rooms := fun _ => none
  time := 0
  lookSources := fun _ => some []

/-- C8 counterexample: a source harvester whose position holds no source
falls back to an unreserved `MoveToPosition` entry — a non-idle
fallback, contradicting the claim that a proposal with no qualifying
candidate always returns `IdleUntil(tick + backoff)`. -/
theorem harvester_fallback_is_move :
    find_task (RoleSpec.source_harvester ⟨10, 20⟩) emptyStore noSourceWorld []
      = some (TaskQueueEntry.new_unreserved (Task.MoveToPosition ⟨10, 20⟩ 1), []) ∧
    (TaskQueueEntry.new_unreserved (Task.MoveToPosition ⟨10, 20⟩ 1)).task
      ≠ Task.IdleUntil (0 + NO_TASK_IDLE_TICKS) := by
  exact ⟨rfl, by decide⟩

/-- The guard of the startup spawn/extension delivery scan. -/
def startupDeliveryAccepts (s : StructureInfo) : Bool :=
  if s.kind = StructureKind.spawn ∨ s.kind = StructureKind.extension then
    if clampU32 s.storeFreeEnergy > 0 then true else false
  else false

/-- The guard of the startup repair scan (hard-coded 10000 watermark,
no ledger). -/
def startupRepairAccepts (s : StructureInfo) : Bool :=
  if s.hitsMax ≠ 0 ∧ s.hits < 10000 ∧ s.hits * 2 < s.hitsMax then true
  else false

/-- The guard of the startup dropped-energy pickup scan (no ledger). -/
def startupPickupAccepts (r : ResourceInfo) : Bool :=
  if r.resource_type = ResourceType.Energy ∧
      r.amount ≥ BUILDER_ENERGY_PICKUP_THRESHOLD then true
  else false

/-- The guard of the startup structure withdraw scan (no ledger). -/
def startupWithdrawAccepts (s : StructureInfo) : Bool :=
  if s.kind = StructureKind.container ∨ s.kind = StructureKind.storage ∨
      s.kind = StructureKind.terminal then
    if s.storeUsedEnergy ≥ BUILDER_ENERGY_WITHDRAW_THRESHOLD then true
    else false
  else false

/-- The startup delivery scan is a first-fit over its guard. -/
theorem startupDeliveryLoop_eq_find (ea : Nat) (ss : List StructureInfo) :
    startupDeliveryLoop ea ss
      = (ss.find? startupDeliveryAccepts).map
          (fun s => TaskQueueEntry.newNoLedger
            (Task.DeliverToStructure s.id ResourceType.Energy)
            (min ea (clampU32 s.storeFreeEnergy))) := by
  induction ss with
  | nil => rfl
  | cons s rest ih =>
    by_cases h1 : s.kind = StructureKind.spawn ∨ s.kind = StructureKind.extension
    · by_cases h2 : clampU32 s.storeFreeEnergy > 0
      · simp [startupDeliveryLoop, startupDeliveryAccepts, h1, h2]
      · simp [startupDeliveryLoop, startupDeliveryAccepts, h1, h2, ih]
    · simp [startupDeliveryLoop, startupDeliveryAccepts, h1, ih]

/-- The startup repair scan is a first-fit over its guard. -/
theorem startupRepairLoop_eq_find (ea : Nat) (ss : List StructureInfo) :
    startupRepairLoop ea ss
      = (ss.find? startupRepairAccepts).map
          (fun s => TaskQueueEntry.newNoLedger (Task.Repair s.id) ea) := by
  induction ss with
  | nil => rfl
  | cons s rest ih =>
    by_cases h1 : s.hitsMax ≠ 0 ∧ s.hits < 10000 ∧ s.hits * 2 < s.hitsMax
    · simp [startupRepairLoop, startupRepairAccepts, h1]
    · simp [startupRepairLoop, startupRepairAccepts, h1, ih]

/-- The startup pickup scan is a first-fit over its guard. -/
theorem startupDroppedLoop_eq_find (cap : Nat) (rs : List ResourceInfo) :
    startupDroppedLoop cap rs
      = (rs.find? startupPickupAccepts).map
          (fun r => TaskQueueEntry.newNoLedger (Task.TakeFromResource r.id)
            (min r.amount cap)) := by
  induction rs with
  | nil => rfl
  | cons r rest ih =>
    by_cases h1 : r.resource_type = ResourceType.Energy ∧
        r.amount ≥ BUILDER_ENERGY_PICKUP_THRESHOLD
    · simp [startupDroppedLoop, startupPickupAccepts, h1]
    · simp [startupDroppedLoop, startupPickupAccepts, h1, ih]

/-- The startup withdraw scan is a first-fit over its guard. -/
theorem startupStructureLoop_eq_find (cap : Nat) (ss : List StructureInfo) :
    startupStructureLoop cap ss
      = (ss.find? startupWithdrawAccepts).map
          (fun s => TaskQueueEntry.newNoLedger
            (Task.TakeFromStructure s.id ResourceType.Energy)
            (min s.storeUsedEnergy cap)) := by
  induction ss with
  | nil => rfl
  | cons s rest ih =>
    by_cases h1 : s.kind = StructureKind.container ∨
        s.kind = StructureKind.storage ∨ s.kind = StructureKind.terminal
    · by_cases h2 : s.storeUsedEnergy ≥ BUILDER_ENERGY_WITHDRAW_THRESHOLD
      · simp [startupStructureLoop, startupWithdrawAccepts, h1, h2]
      · simp [startupStructureLoop, startupWithdrawAccepts, h1, h2, ih]
    · simp [startupStructureLoop, startupWithdrawAccepts, h1, ih]

/-- A scan whose every candidate fails the guard finds nothing. -/
theorem find?_none_of_all_not {α : Type} (p : α → Bool) (xs : List α)
    (h : xs.all (fun x => ! p x) = true) : xs.find? p = none := by
  rw [List.find?_eq_none]
  intro x hx
  have hx2 := List.all_eq_true.mp h x hx
  simp only [Bool.not_eq_true'] at hx2
  simp [hx2]

/-- C8 amended: when every scanned candidate is rejected (or none is
present), every home-room role proposal falls back to exactly the
unreserved `IdleUntil(time + NO_TASK_IDLE_TICKS)` entry with the ledger
untouched — the builder build-or-repair and energy-or-source proposals,
the hauler delivery and energy proposals, the upgrader energy-or-source
and no-controller upgrade proposals, and both startup proposals; the
source harvester, however, falls back to an unreserved
`MoveToPosition(source_position, 1)` entry instead of an idle entry. -/
theorem no_candidate_fallbacks :
    (∀ room wm ea (l : Ledger) time,
      room.structures.all (fun s => ! repairAccepts wm l s) = true →
      room.construction_sites.all (fun c => ! buildAccepts l c) = true →
      find_build_or_repair_task room wm ea l time
        = (TaskQueueEntry.new_unreserved
            (Task.IdleUntil (time + NO_TASK_IDLE_TICKS)), l)) ∧
    (∀ room ea (l : Ledger) time ms mt,
      deliveryPriorityLoop ea l room.structures none none = Sum.inr (ms, mt) →
      terminalRejects ea l mt = true →
      storageRejects ea l ms = true →
      find_delivery_target room ea l time
        = (TaskQueueEntry.new_unreserved
            (Task.IdleUntil (time + NO_TASK_IDLE_TICKS)), l)) ∧
    (∀ pos : Position,
      sourceHarvesterFindTask pos none
        = TaskQueueEntry.new_unreserved (Task.MoveToPosition pos 1) ∧
      sourceHarvesterFindTask pos (some [])
        = TaskQueueEntry.new_unreserved (Task.MoveToPosition pos 1)) ∧
    (∀ room cap (l : Ledger) time,
      room.dropped_resources.all
        (fun r => ! pickupAccepts BUILDER_ENERGY_PICKUP_THRESHOLD cap l r)
        = true →
      room.structures.all
        (fun s => ! withdrawAccepts BUILDER_ENERGY_WITHDRAW_THRESHOLD cap l s)
        = true →
      room.sources_active.all (fun s => ! builderSourceAccepts room l s)
        = true →
      builderFindEnergyOrSource room cap l time
        = (TaskQueueEntry.new_unreserved
            (Task.IdleUntil (time + NO_TASK_IDLE_TICKS)), l)) ∧
    (∀ room cap (l : Ledger) time,
      room.dropped_resources.all
        (fun r => ! pickupAccepts UPGRADER_ENERGY_PICKUP_THRESHOLD cap l r)
        = true →
      room.structures.all
        (fun s => ! withdrawAccepts UPGRADER_ENERGY_WITHDRAW_THRESHOLD cap l s)
        = true →
      room.sources_active.all (fun s => ! upgraderSourceAccepts room l s)
        = true →
      upgraderFindEnergyOrSource room cap l time
        = (TaskQueueEntry.new_unreserved
            (Task.IdleUntil (time + NO_TASK_IDLE_TICKS)), l)) ∧
    (∀ room cap (l : Ledger) time,
      room.dropped_resources.all
        (fun r => ! pickupAccepts HAULER_ENERGY_PICKUP_THRESHOLD cap l r)
        = true →
      room.structures.all
        (fun s => ! withdrawAccepts HAULER_ENERGY_WITHDRAW_THRESHOLD cap l s)
        = true →
      find_energy room cap l time
        = (TaskQueueEntry.new_unreserved
            (Task.IdleUntil (time + NO_TASK_IDLE_TICKS)), l)) ∧
    (∀ room (l : Ledger) time,
      room.controller = none →
      find_upgrade_task room l time
        = (TaskQueueEntry.new_unreserved
            (Task.IdleUntil (time + NO_TASK_IDLE_TICKS)), l)) ∧
    (∀ room ea time,
      room.structures.all (fun s => ! startupDeliveryAccepts s) = true →
      room.structures.all (fun s => ! startupRepairAccepts s) = true →
      room.construction_sites = [] →
      room.controller = none →
      find_startup_task room ea time
        = TaskQueueEntry.new_unreserved
            (Task.IdleUntil (time + NO_TASK_IDLE_TICKS))) ∧
    (∀ room cap time,
      room.dropped_resources.all (fun r => ! startupPickupAccepts r) = true →
      room.structures.all (fun s => ! startupWithdrawAccepts s) = true →
      room.sources_active = [] →
      startupFindEnergyOrSource room cap time
        = TaskQueueEntry.new_unreserved
            (Task.IdleUntil (time + NO_TASK_IDLE_TICKS))) := by
  refine ⟨?_, ?_, fun pos => ⟨rfl, rfl⟩, ?_, ?_, ?_, ?_, ?_, ?_⟩
  · intro room wm ea l time hr hb
    unfold find_build_or_repair_task
    rw [repairLoop_eq_find, find?_none_of_all_not _ _ hr,
      buildLoop_eq_find, find?_none_of_all_not _ _ hb]
    rfl
  · intro room ea l time ms mt hp ht hs
    unfold find_delivery_target
    rw [hp]
    show deliveryTerminalCheck ea l mt ms time = _
    rw [deliveryTerminalCheck_of_rejects ea l mt ms time ht,
      deliveryStorageCheck_of_rejects ea l ms time hs]
  · intro room cap l time h1 h2 h3
    unfold builderFindEnergyOrSource
    rw [droppedEnergyLoop_eq_find, find?_none_of_all_not _ _ h1,
      structureEnergyLoop_eq_find, find?_none_of_all_not _ _ h2,
      builderSourceLoop_eq_find, find?_none_of_all_not _ _ h3]
    rfl
  · intro room cap l time h1 h2 h3
    unfold upgraderFindEnergyOrSource
    rw [droppedEnergyLoop_eq_find, find?_none_of_all_not _ _ h1,
      structureEnergyLoop_eq_find, find?_none_of_all_not _ _ h2,
      upgraderSourceLoop_eq_find, find?_none_of_all_not _ _ h3]
    rfl
  · intro room cap l time h1 h2
    unfold find_energy
    rw [droppedEnergyLoop_eq_find, find?_none_of_all_not _ _ h1,
      structureEnergyLoop_eq_find, find?_none_of_all_not _ _ h2]
    rfl
  · intro room l time hc
    unfold find_upgrade_task
    rw [hc]
  · intro room ea time h1 h2 h3 h4
    unfold find_startup_task
    rw [startupDeliveryLoop_eq_find, find?_none_of_all_not _ _ h1,
      startupRepairLoop_eq_find, find?_none_of_all_not _ _ h2, h3, h4]
    rfl
  · intro room cap time h1 h2 h3
    unfold startupFindEnergyOrSource
    rw [startupDroppedLoop_eq_find, find?_none_of_all_not _ _ h1,
      startupStructureLoop_eq_find, find?_none_of_all_not _ _ h2, h3]
    rfl

/-- Witness for the amended C8: a room with no repair or build
candidates yields the idle backoff entry. -/
theorem no_candidate_fallbacks_witness :
    find_build_or_repair_task pileRoom 10000 5 [] 0
      = (TaskQueueEntry.new_unreserved
          (Task.IdleUntil (0 + NO_TASK_IDLE_TICKS)), []) :=
  no_candidate_fallbacks.1 pileRoom 10000 5 [] 0 (by decide) (by decide)

/-- An identity absent from the key list has claimed amount zero. -/
theorem lookup0_of_not_mem (m : Ledger) (t : Task)
    (h : t ∉ m.map Prod.fst) : lookup0 m t = 0 := by
  induction m with
  | nil => rfl
  | cons q rest ih =>
    obtain ⟨k, v⟩ := q
    simp only [List.map_cons, List.mem_cons] at h
    push_neg at h
    simp only [lookup0]
    rw [if_neg (fun hk => h.1 hk.symm)]
    exact ih h.2

/-- Releasing exactly what was just claimed restores every claimed
amount, provided the claim did not saturate and the ledger keys are
duplicate-free. -/
theorem lookup0_release_add (m : Ledger) (t : Task) (a : Nat)
    (hb : lookup0 m t + a ≤ u32max) (hnd : (m.map Prod.fst).Nodup) :
    ∀ u, lookup0 (release (add_reservation_with_amount m t a) t a) u
      = lookup0 m u := by
  induction m with
  | nil =>
    intro u
    simp [add_reservation_with_amount, release, lookup0]
  | cons q rest ih =>
    obtain ⟨k, v⟩ := q
    simp only [List.map_cons, List.nodup_cons] at hnd
    by_cases hk : k = t
    · subst hk
      have hvb : v + a ≤ u32max := by simpa [lookup0] using hb
      have hsat : satAdd v a = v + a := by
        simp only [satAdd]
        omega
      intro u
      by_cases hz : v = 0
      · subst hz
        by_cases hu : k = u
        · subst hu
          simp [add_reservation_with_amount, release, hsat, lookup0,
            lookup0_of_not_mem rest k hnd.1]
        · simp [add_reservation_with_amount, release, hsat, lookup0, hu]
      · simp [add_reservation_with_amount, release, hsat, lookup0, hz]
    · intro u
      have hb2 : lookup0 rest t + a ≤ u32max := by
        simpa [lookup0, hk] using hb
      by_cases hu : k = u
      · subst hu
        simp [add_reservation_with_amount, release, hk, lookup0]
      · simp [add_reservation_with_amount, release, hk, lookup0, hu,
          ih hb2 hnd.2 u]

/-- Releasing amount zero changes no claimed amount (it may drop an
already-zero entry). -/
theorem lookup0_release_zero (m : Ledger) (t : Task)
    (hnd : (m.map Prod.fst).Nodup) :
    ∀ u, lookup0 (release m t 0) u = lookup0 m u := by
  induction m with
  | nil => intro u; rfl
  | cons q rest ih =>
    obtain ⟨k, v⟩ := q
    simp only [List.map_cons, List.nodup_cons] at hnd
    intro u
    by_cases hk : k = t
    · subst hk
      by_cases hz : v = 0
      · subst hz
        by_cases hu : k = u
        · subst hu
          simp [release, lookup0, lookup0_of_not_mem rest k hnd.1]
        · simp [release, lookup0, hu]
      · simp [release, lookup0, hz]
    · by_cases hu : k = u
      · subst hu
        simp [release, hk, lookup0]
      · simp [release, hk, lookup0, hu, ih hnd.2 u]

/-! ## Ledger extensionality

The proposal functions read the ledger only through `lookup0`, so two
ledgers with pointwise-equal claimed amounts produce the same entry. -/

/-- Entry stability of the builder build-or-repair proposal. -/
theorem find_build_or_repair_fst_ext (room : Room) (wm ea time : Nat)
    (l l' : Ledger) (hp : ∀ u, lookup0 l u = lookup0 l' u) :
    (find_build_or_repair_task room wm ea l time).1
      = (find_build_or_repair_task room wm ea l' time).1 := by
  have hP : repairAccepts wm l = repairAccepts wm l' := by
    funext s
    unfold repairAccepts
    rw [hp]
  have hQ : buildAccepts l = buildAccepts l' := by
    funext c
    unfold buildAccepts
    rw [hp]
  unfold find_build_or_repair_task
  rw [repairLoop_eq_find, repairLoop_eq_find, hP, buildLoop_eq_find,
    buildLoop_eq_find, hQ]
  cases room.structures.find? (repairAccepts wm l') with
  | some s => rfl
  | none =>
    cases room.construction_sites.find? (buildAccepts l') with
    | some c => rfl
    | none => rfl

/-- Entry stability of the builder energy-or-source proposal. -/
theorem builderFindEnergyOrSource_fst_ext (room : Room) (cap time : Nat)
    (l l' : Ledger) (hp : ∀ u, lookup0 l u = lookup0 l' u) :
    (builderFindEnergyOrSource room cap l time).1
      = (builderFindEnergyOrSource room cap l' time).1 := by
  have hP : pickupAccepts BUILDER_ENERGY_PICKUP_THRESHOLD cap l
      = pickupAccepts BUILDER_ENERGY_PICKUP_THRESHOLD cap l' := by
    funext r
    unfold pickupAccepts
    rw [hp]
  have hQ : withdrawAccepts BUILDER_ENERGY_WITHDRAW_THRESHOLD cap l
      = withdrawAccepts BUILDER_ENERGY_WITHDRAW_THRESHOLD cap l' := by
    funext s
    unfold withdrawAccepts
    rw [hp]
  have hR : builderSourceAccepts room l = builderSourceAccepts room l' := by
    funext s
    unfold builderSourceAccepts
    rw [hp]
  unfold builderFindEnergyOrSource
  rw [droppedEnergyLoop_eq_find, droppedEnergyLoop_eq_find, hP,
    structureEnergyLoop_eq_find, structureEnergyLoop_eq_find, hQ,
    builderSourceLoop_eq_find, builderSourceLoop_eq_find, hR]
  cases room.dropped_resources.find?
      (pickupAccepts BUILDER_ENERGY_PICKUP_THRESHOLD cap l') with
  | some r => rfl
  | none =>
    cases room.structures.find?
        (withdrawAccepts BUILDER_ENERGY_WITHDRAW_THRESHOLD cap l') with
    | some s => rfl
    | none =>
      cases room.sources_active.find? (builderSourceAccepts room l') with
      | some s => rfl
      | none => rfl

/-- Entry stability of the upgrader energy-or-source proposal. -/
theorem upgraderFindEnergyOrSource_fst_ext (room : Room) (cap time : Nat)
    (l l' : Ledger) (hp : ∀ u, lookup0 l u = lookup0 l' u) :
    (upgraderFindEnergyOrSource room cap l time).1
      = (upgraderFindEnergyOrSource room cap l' time).1 := by
  have hP : pickupAccepts UPGRADER_ENERGY_PICKUP_THRESHOLD cap l
      = pickupAccepts UPGRADER_ENERGY_PICKUP_THRESHOLD cap l' := by
    funext r
    unfold pickupAccepts
    rw [hp]
  have hQ : withdrawAccepts UPGRADER_ENERGY_WITHDRAW_THRESHOLD cap l
      = withdrawAccepts UPGRADER_ENERGY_WITHDRAW_THRESHOLD cap l' := by
    funext s
    unfold withdrawAccepts
    rw [hp]
  have hR : upgraderSourceAccepts room l = upgraderSourceAccepts room l' := by
    funext s
    unfold upgraderSourceAccepts
    rw [hp]
  unfold upgraderFindEnergyOrSource
  rw [droppedEnergyLoop_eq_find, droppedEnergyLoop_eq_find, hP,
    structureEnergyLoop_eq_find, structureEnergyLoop_eq_find, hQ,
    upgraderSourceLoop_eq_find, upgraderSourceLoop_eq_find, hR]
  cases room.dropped_resources.find?
      (pickupAccepts UPGRADER_ENERGY_PICKUP_THRESHOLD cap l') with
  | some r => rfl
  | none =>
    cases room.structures.find?
        (withdrawAccepts UPGRADER_ENERGY_WITHDRAW_THRESHOLD cap l') with
    | some s => rfl
    | none =>
      cases room.sources_active.find? (upgraderSourceAccepts room l') with
      | some s => rfl
      | none => rfl

/-- Entry stability of the hauler energy pickup proposal. -/
theorem find_energy_fst_ext (room : Room) (cap time : Nat)
    (l l' : Ledger) (hp : ∀ u, lookup0 l u = lookup0 l' u) :
    (find_energy room cap l time).1 = (find_energy room cap l' time).1 := by
  have hP : pickupAccepts HAULER_ENERGY_PICKUP_THRESHOLD cap l
      = pickupAccepts HAULER_ENERGY_PICKUP_THRESHOLD cap l' := by
    funext r
    unfold pickupAccepts
    rw [hp]
  have hQ : withdrawAccepts HAULER_ENERGY_WITHDRAW_THRESHOLD cap l
      = withdrawAccepts HAULER_ENERGY_WITHDRAW_THRESHOLD cap l' := by
    funext s
    unfold withdrawAccepts
    rw [hp]
  unfold find_energy
  rw [droppedEnergyLoop_eq_find, droppedEnergyLoop_eq_find, hP,
    structureEnergyLoop_eq_find, structureEnergyLoop_eq_find, hQ]
  cases room.dropped_resources.find?
      (pickupAccepts HAULER_ENERGY_PICKUP_THRESHOLD cap l') with
  | some r => rfl
  | none =>
    cases room.structures.find?
        (withdrawAccepts HAULER_ENERGY_WITHDRAW_THRESHOLD cap l') with
    | some s => rfl
    | none => rfl

/-- Entry stability of the upgrader upgrade proposal. -/
theorem find_upgrade_task_fst_ext (room : Room) (time : Nat)
    (l l' : Ledger) :
    (find_upgrade_task room l time).1 = (find_upgrade_task room l' time).1 := by
  unfold find_upgrade_task
  cases room.controller with
  | some cid => rfl
  | none => rfl

/-- Entry stability of the hauler priority delivery scan, together with
equality of the collected storage/terminal pair. -/
theorem deliveryPriorityLoop_rel (ea : Nat) (l l' : Ledger)
    (hp : ∀ u, lookup0 l u = lookup0 l' u) :
    ∀ (ss : List StructureInfo) (st tm : Option StructureInfo),
      Sum.map Prod.fst id (deliveryPriorityLoop ea l ss st tm)
        = Sum.map Prod.fst id (deliveryPriorityLoop ea l' ss st tm) := by
  intro ss
  induction ss with
  | nil => intro st tm; rfl
  | cons s rest ih =>
    intro st tm
    by_cases h1 : s.kind = StructureKind.storage
    · simp [deliveryPriorityLoop, h1, ih]
    · by_cases h2 : s.kind = StructureKind.terminal
      · simp [deliveryPriorityLoop, h1, h2, ih]
      · by_cases h3 : s.kind = StructureKind.spawn ∨
            s.kind = StructureKind.extension ∨ s.kind = StructureKind.tower
        · by_cases h4 : clampU32 s.storeFreeEnergy > 0
          · by_cases h5 : lookup0 l
                (Task.DeliverToStructure s.id ResourceType.Energy)
                < clampU32 s.storeFreeEnergy
            · have h5' : lookup0 l'
                  (Task.DeliverToStructure s.id ResourceType.Energy)
                  < clampU32 s.storeFreeEnergy := by
                rw [← hp]
                exact h5
              simp [deliveryPriorityLoop, h1, h2, h3, h4, h5, h5',
                TaskQueueEntry.new]
            · have h5' : ¬ lookup0 l'
                  (Task.DeliverToStructure s.id ResourceType.Energy)
                  < clampU32 s.storeFreeEnergy := by
                rw [← hp]
                exact h5
              simp [deliveryPriorityLoop, h1, h2, h3, h4, h5, h5', ih]
          · simp [deliveryPriorityLoop, h1, h2, h3, h4, ih]
        · simp [deliveryPriorityLoop, h1, h2, h3, ih]

/-- Entry stability of the hauler storage check. -/
theorem deliveryStorageCheck_fst_ext (ea : Nat) (l l' : Ledger)
    (ms : Option StructureInfo) (time : Nat)
    (hp : ∀ u, lookup0 l u = lookup0 l' u) :
    (deliveryStorageCheck ea l ms time).1
      = (deliveryStorageCheck ea l' ms time).1 := by
  cases ms with
  | none => rfl
  | some st =>
    by_cases h1 : clampU32 st.storeFreeEnergy > 0
    · by_cases h2 : lookup0 l (Task.DeliverToStructure st.id ResourceType.Energy)
          + min ea (clampU32 st.storeFreeEnergy) ≤ clampU32 st.storeFreeEnergy
      · have h2' : lookup0 l' (Task.DeliverToStructure st.id ResourceType.Energy)
            + min ea (clampU32 st.storeFreeEnergy)
            ≤ clampU32 st.storeFreeEnergy := by
          rw [← hp]
          exact h2
        simp [deliveryStorageCheck, h1, h2, h2', TaskQueueEntry.new]
      · have h2' : ¬ (lookup0 l' (Task.DeliverToStructure st.id ResourceType.Energy)
            + min ea (clampU32 st.storeFreeEnergy)
            ≤ clampU32 st.storeFreeEnergy) := by
          rw [← hp]
          exact h2
        simp [deliveryStorageCheck, h1, h2, h2']
    · simp [deliveryStorageCheck, h1]

/-- Entry stability of the hauler terminal check. -/
theorem deliveryTerminalCheck_fst_ext (ea : Nat) (l l' : Ledger)
    (mt ms : Option StructureInfo) (time : Nat)
    (hp : ∀ u, lookup0 l u = lookup0 l' u) :
    (deliveryTerminalCheck ea l mt ms time).1
      = (deliveryTerminalCheck ea l' mt ms time).1 := by
  cases mt with
  | none => exact deliveryStorageCheck_fst_ext ea l l' ms time hp
  | some tm =>
    by_cases h1 : tm.storeUsedEnergy < TERMINAL_ENERGY_TARGET
    · by_cases h2 : clampU32 tm.storeFreeEnergy > 0
      · by_cases h3 : lookup0 l (Task.DeliverToStructure tm.id ResourceType.Energy)
            + min ea (clampU32 tm.storeFreeEnergy) ≤ clampU32 tm.storeFreeEnergy
        · have h3' : lookup0 l' (Task.DeliverToStructure tm.id ResourceType.Energy)
              + min ea (clampU32 tm.storeFreeEnergy)
              ≤ clampU32 tm.storeFreeEnergy := by
            rw [← hp]
            exact h3
          simp [deliveryTerminalCheck, h1, h2, h3, h3', TaskQueueEntry.new]
        · have h3' : ¬ (lookup0 l' (Task.DeliverToStructure tm.id ResourceType.Energy)
              + min ea (clampU32 tm.storeFreeEnergy)
              ≤ clampU32 tm.storeFreeEnergy) := by
            rw [← hp]
            exact h3
          simp only [deliveryTerminalCheck, if_pos h1, if_pos h2, if_neg h3,
            if_neg h3']
          exact deliveryStorageCheck_fst_ext ea l l' ms time hp
      · simp only [deliveryTerminalCheck, if_pos h1, if_neg h2]
        exact deliveryStorageCheck_fst_ext ea l l' ms time hp
    · simp only [deliveryTerminalCheck, if_neg h1]
      exact deliveryStorageCheck_fst_ext ea l l' ms time hp

/-- Entry stability of the hauler delivery proposal. -/
theorem find_delivery_target_fst_ext (room : Room) (ea time : Nat)
    (l l' : Ledger) (hp : ∀ u, lookup0 l u = lookup0 l' u) :
    (find_delivery_target room ea l time).1
      = (find_delivery_target room ea l' time).1 := by
  have hrel := deliveryPriorityLoop_rel ea l l' hp room.structures none none
  unfold find_delivery_target
  cases hL : deliveryPriorityLoop ea l room.structures none none with
  | inl r =>
    cases hL2 : deliveryPriorityLoop ea l' room.structures none none with
    | inl r2 =>
      rw [hL, hL2] at hrel
      simp only [Sum.map_inl, Sum.inl.injEq] at hrel
      simpa using hrel
    | inr p2 =>
      rw [hL, hL2] at hrel
      simp at hrel
  | inr p =>
    cases hL2 : deliveryPriorityLoop ea l' room.structures none none with
    | inl r2 =>
      rw [hL, hL2] at hrel
      simp at hrel
    | inr p2 =>
      rw [hL, hL2] at hrel
      simp only [Sum.map_inr, Sum.inr.injEq, id_eq] at hrel
      subst hrel
      obtain ⟨ms, mt⟩ := p
      exact deliveryTerminalCheck_fst_ext ea l l' mt ms time hp

/-- Entry stability of the full role dispatcher: ledgers with
pointwise-equal claimed amounts yield the same proposed entry. -/
theorem find_task_fst_ext (role : RoleSpec) (store : Store) (w : World)
    (l l' : Ledger) (hp : ∀ u, lookup0 l u = lookup0 l' u) :
    (find_task role store w l).map Prod.fst
      = (find_task role store w l').map Prod.fst := by
  cases role with
  | builder home wm =>
    simp only [find_task]
    cases hw : w.rooms home with
    | none => rfl
    | some room =>
      simp only [Option.map_some', Option.some.injEq]
      by_cases hea : store.usedEnergy > 0
      · simp only [if_pos hea]
        exact find_build_or_repair_fst_ext room wm store.usedEnergy w.time l l' hp
      · simp only [if_neg hea]
        by_cases hcap : clampU32 store.freeEnergy > 0
        · simp only [if_pos hcap]
          exact builderFindEnergyOrSource_fst_ext room
            (clampU32 store.freeEnergy) w.time l l' hp
        · simp only [if_neg hcap]
  | hauler home idv =>
    simp only [find_task]
    cases hw : w.rooms home with
    | none => rfl
    | some room =>
      simp only [Option.map_some', Option.some.injEq]
      by_cases hea : store.usedEnergy > 0
      · simp only [if_pos hea]
        exact find_delivery_target_fst_ext room store.usedEnergy w.time l l' hp
      · simp only [if_neg hea]
        by_cases hcap : clampU32 store.freeEnergy > 0
        · simp only [if_pos hcap]
          exact find_energy_fst_ext room (clampU32 store.freeEnergy) w.time l l' hp
        · simp only [if_neg hcap]
  | upgrader home idv =>
    simp only [find_task]
    cases hw : w.rooms home with
    | none => rfl
    | some room =>
      simp only [Option.map_some', Option.some.injEq]
      by_cases hea : store.usedEnergy > 0
      · simp only [if_pos hea]
        exact find_upgrade_task_fst_ext room w.time l l'
      · simp only [if_neg hea]
        by_cases hcap : clampU32 store.freeEnergy > 0
        · simp only [if_pos hcap]
          exact upgraderFindEnergyOrSource_fst_ext room
            (clampU32 store.freeEnergy) w.time l l' hp
        · simp only [if_neg hcap]
  | startup home idv =>
    simp only [find_task]
    cases hw : w.rooms home with
    | none => rfl
    | some room =>
      simp only [Option.map_some', Option.some.injEq]
      split <;> rfl
  | source_harvester pos => rfl
  | tower r => rfl

/-! ## Ledger shape of a returned proposal -/

/-- The build-or-repair proposal either registered exactly the returned
reservation or returned an unreserved entry with the ledger untouched. -/
theorem find_build_or_repair_shape (room : Room) (wm ea time : Nat)
    (l : Ledger) (e : TaskQueueEntry) (l1 : Ledger)
    (h : find_build_or_repair_task room wm ea l time = (e, l1)) :
    l1 = add_reservation_with_amount l e.task e.amount ∨
      (e.amount = 0 ∧ l1 = l) := by
  unfold find_build_or_repair_task at h
  rw [repairLoop_eq_find, buildLoop_eq_find] at h
  cases hf : room.structures.find? (repairAccepts wm l) with
  | some s =>
    rw [hf] at h
    have h2 : TaskQueueEntry.new (Task.Repair s.id) ea l = (e, l1) := h
    unfold TaskQueueEntry.new at h2
    rw [Prod.ext_iff] at h2
    obtain ⟨he, hl⟩ := h2
    subst he
    subst hl
    exact Or.inl rfl
  | none =>
    rw [hf] at h
    cases hf2 : room.construction_sites.find? (buildAccepts l) with
    | some c =>
      rw [hf2] at h
      have h2 : TaskQueueEntry.new (Task.Build c.id) ea l = (e, l1) := h
      unfold TaskQueueEntry.new at h2
      rw [Prod.ext_iff] at h2
      obtain ⟨he, hl⟩ := h2
      subst he
      subst hl
      exact Or.inl rfl
    | none =>
      rw [hf2] at h
      have h2 : (TaskQueueEntry.new_unreserved
          (Task.IdleUntil (time + NO_TASK_IDLE_TICKS)), l) = (e, l1) := h
      rw [Prod.ext_iff] at h2
      obtain ⟨he, hl⟩ := h2
      subst he
      subst hl
      exact Or.inr ⟨rfl, rfl⟩

/-- Ledger shape of the builder energy-or-source proposal. -/
theorem builderFindEnergyOrSource_shape (room : Room) (cap time : Nat)
    (l : Ledger) (e : TaskQueueEntry) (l1 : Ledger)
    (h : builderFindEnergyOrSource room cap l time = (e, l1)) :
    l1 = add_reservation_with_amount l e.task e.amount ∨
      (e.amount = 0 ∧ l1 = l) := by
  unfold builderFindEnergyOrSource at h
  rw [droppedEnergyLoop_eq_find, structureEnergyLoop_eq_find,
    builderSourceLoop_eq_find] at h
  cases hf : room.dropped_resources.find?
      (pickupAccepts BUILDER_ENERGY_PICKUP_THRESHOLD cap l) with
  | some r =>
    rw [hf] at h
    have h2 : TaskQueueEntry.new (Task.TakeFromResource r.id)
        (min r.amount cap) l = (e, l1) := h
    unfold TaskQueueEntry.new at h2
    rw [Prod.ext_iff] at h2
    obtain ⟨he, hl⟩ := h2
    subst he
    subst hl
    exact Or.inl rfl
  | none =>
    rw [hf] at h
    cases hf2 : room.structures.find?
        (withdrawAccepts BUILDER_ENERGY_WITHDRAW_THRESHOLD cap l) with
    | some s =>
      rw [hf2] at h
      have h2 : TaskQueueEntry.new (Task.TakeFromStructure s.id
          ResourceType.Energy) (min s.storeUsedEnergy cap) l = (e, l1) := h
      unfold TaskQueueEntry.new at h2
      rw [Prod.ext_iff] at h2
      obtain ⟨he, hl⟩ := h2
      subst he
      subst hl
      exact Or.inl rfl
    | none =>
      rw [hf2] at h
      cases hf3 : room.sources_active.find? (builderSourceAccepts room l) with
      | some s =>
        rw [hf3] at h
        have h2 : TaskQueueEntry.new (Task.HarvestEnergyUntilFull s.id) 1 l
            = (e, l1) := h
        unfold TaskQueueEntry.new at h2
        rw [Prod.ext_iff] at h2
        obtain ⟨he, hl⟩ := h2
        subst he
        subst hl
        exact Or.inl rfl
      | none =>
        rw [hf3] at h
        have h2 : (TaskQueueEntry.new_unreserved
            (Task.IdleUntil (time + NO_TASK_IDLE_TICKS)), l) = (e, l1) := h
        rw [Prod.ext_iff] at h2
        obtain ⟨he, hl⟩ := h2
        subst he
        subst hl
        exact Or.inr ⟨rfl, rfl⟩

/-- Ledger shape of the upgrader energy-or-source proposal. -/
theorem upgraderFindEnergyOrSource_shape (room : Room) (cap time : Nat)
    (l : Ledger) (e : TaskQueueEntry) (l1 : Ledger)
    (h : upgraderFindEnergyOrSource room cap l time = (e, l1)) :
    l1 = add_reservation_with_amount l e.task e.amount ∨
      (e.amount = 0 ∧ l1 = l) := by
  unfold upgraderFindEnergyOrSource at h
  rw [droppedEnergyLoop_eq_find, structureEnergyLoop_eq_find,
    upgraderSourceLoop_eq_find] at h
  cases hf : room.dropped_resources.find?
      (pickupAccepts UPGRADER_ENERGY_PICKUP_THRESHOLD cap l) with
  | some r =>
    rw [hf] at h
    have h2 : TaskQueueEntry.new (Task.TakeFromResource r.id)
        (min r.amount cap) l = (e, l1) := h
    unfold TaskQueueEntry.new at h2
    rw [Prod.ext_iff] at h2
    obtain ⟨he, hl⟩ := h2
    subst he
    subst hl
    exact Or.inl rfl
  | none =>
    rw [hf] at h
    cases hf2 : room.structures.find?
        (withdrawAccepts UPGRADER_ENERGY_WITHDRAW_THRESHOLD cap l) with
    | some s =>
      rw [hf2] at h
      have h2 : TaskQueueEntry.new (Task.TakeFromStructure s.id
          ResourceType.Energy) (min s.storeUsedEnergy cap) l = (e, l1) := h
      unfold TaskQueueEntry.new at h2
      rw [Prod.ext_iff] at h2
      obtain ⟨he, hl⟩ := h2
      subst he
      subst hl
      exact Or.inl rfl
    | none =>
      rw [hf2] at h
      cases hf3 : room.sources_active.find? (upgraderSourceAccepts room l) with
      | some s =>
        rw [hf3] at h
        have h2 : TaskQueueEntry.new (Task.HarvestEnergyUntilFull s.id) 1 l
            = (e, l1) := h
        unfold TaskQueueEntry.new at h2
        rw [Prod.ext_iff] at h2
        obtain ⟨he, hl⟩ := h2
        subst he
        subst hl
        exact Or.inl rfl
      | none =>
        rw [hf3] at h
        have h2 : (TaskQueueEntry.new_unreserved
            (Task.IdleUntil (time + NO_TASK_IDLE_TICKS)), l) = (e, l1) := h
        rw [Prod.ext_iff] at h2
        obtain ⟨he, hl⟩ := h2
        subst he
        subst hl
        exact Or.inr ⟨rfl, rfl⟩

/-- Ledger shape of the hauler energy pickup proposal. -/
theorem find_energy_shape (room : Room) (cap time : Nat)
    (l : Ledger) (e : TaskQueueEntry) (l1 : Ledger)
    (h : find_energy room cap l time = (e, l1)) :
    l1 = add_reservation_with_amount l e.task e.amount ∨
      (e.amount = 0 ∧ l1 = l) := by
  unfold find_energy at h
  rw [droppedEnergyLoop_eq_find, structureEnergyLoop_eq_find] at h
  cases hf : room.dropped_resources.find?
      (pickupAccepts HAULER_ENERGY_PICKUP_THRESHOLD cap l) with
  | some r =>
    rw [hf] at h
    have h2 : TaskQueueEntry.new (Task.TakeFromResource r.id)
        (min r.amount cap) l = (e, l1) := h
    unfold TaskQueueEntry.new at h2
    rw [Prod.ext_iff] at h2
    obtain ⟨he, hl⟩ := h2
    subst he
    subst hl
    exact Or.inl rfl
  | none =>
    rw [hf] at h
    cases hf2 : room.structures.find?
        (withdrawAccepts HAULER_ENERGY_WITHDRAW_THRESHOLD cap l) with
    | some s =>
      rw [hf2] at h
      have h2 : TaskQueueEntry.new (Task.TakeFromStructure s.id
          ResourceType.Energy) (min s.storeUsedEnergy cap) l = (e, l1) := h
      unfold TaskQueueEntry.new at h2
      rw [Prod.ext_iff] at h2
      obtain ⟨he, hl⟩ := h2
      subst he
      subst hl
      exact Or.inl rfl
    | none =>
      rw [hf2] at h
      have h2 : (TaskQueueEntry.new_unreserved
          (Task.IdleUntil (time + NO_TASK_IDLE_TICKS)), l) = (e, l1) := h
      rw [Prod.ext_iff] at h2
      obtain ⟨he, hl⟩ := h2
      subst he
      subst hl
      exact Or.inr ⟨rfl, rfl⟩

/-- Ledger shape of the upgrader upgrade proposal. -/
theorem find_upgrade_task_shape (room : Room) (time : Nat)
    (l : Ledger) (e : TaskQueueEntry) (l1 : Ledger)
    (h : find_upgrade_task room l time = (e, l1)) :
    l1 = add_reservation_with_amount l e.task e.amount ∨
      (e.amount = 0 ∧ l1 = l) := by
  unfold find_upgrade_task at h
  cases hc : room.controller with
  | some cid =>
    rw [hc] at h
    have h2 : TaskQueueEntry.new (Task.Upgrade cid) 1 l = (e, l1) := h
    unfold TaskQueueEntry.new at h2
    rw [Prod.ext_iff] at h2
    obtain ⟨he, hl⟩ := h2
    subst he
    subst hl
    exact Or.inl rfl
  | none =>
    rw [hc] at h
    have h2 : (TaskQueueEntry.new_unreserved
        (Task.IdleUntil (time + NO_TASK_IDLE_TICKS)), l) = (e, l1) := h
    rw [Prod.ext_iff] at h2
    obtain ⟨he, hl⟩ := h2
    subst he
    subst hl
    exact Or.inr ⟨rfl, rfl⟩

/-- Ledger shape of an early return from the hauler priority scan. -/
theorem deliveryPriorityLoop_shape (ea : Nat) (l : Ledger) :
    ∀ (ss : List StructureInfo) (st tm : Option StructureInfo)
      (e : TaskQueueEntry) (l1 : Ledger),
      deliveryPriorityLoop ea l ss st tm = Sum.inl (e, l1) →
      l1 = add_reservation_with_amount l e.task e.amount := by
  intro ss
  induction ss with
  | nil =>
    intro st tm e l1 h
    simp [deliveryPriorityLoop] at h
  | cons s rest ih =>
    intro st tm e l1 h
    simp only [deliveryPriorityLoop] at h
    split at h
    · exact ih _ _ _ _ h
    · split at h
      · exact ih _ _ _ _ h
      · split at h
        · split at h
          · split at h
            · have h2 : (TaskQueueEntry.new
                  (Task.DeliverToStructure s.id ResourceType.Energy)
                  (min ea (clampU32 s.storeFreeEnergy)) l)
                  = (e, l1) := by
                have := Sum.inl.inj h
                exact this
              unfold TaskQueueEntry.new at h2
              rw [Prod.ext_iff] at h2
              obtain ⟨he, hl⟩ := h2
              subst he
              subst hl
              rfl
            · exact ih _ _ _ _ h
          · exact ih _ _ _ _ h
        · exact ih _ _ _ _ h

/-- Ledger shape of the hauler storage check. -/
theorem deliveryStorageCheck_shape (ea : Nat) (l : Ledger)
    (ms : Option StructureInfo) (time : Nat) (e : TaskQueueEntry)
    (l1 : Ledger) (h : deliveryStorageCheck ea l ms time = (e, l1)) :
    l1 = add_reservation_with_amount l e.task e.amount ∨
      (e.amount = 0 ∧ l1 = l) := by
  cases ms with
  | none =>
    have h2 : (TaskQueueEntry.new_unreserved
        (Task.IdleUntil (time + NO_TASK_IDLE_TICKS)), l) = (e, l1) := h
    rw [Prod.ext_iff] at h2
    obtain ⟨he, hl⟩ := h2
    subst he
    subst hl
    exact Or.inr ⟨rfl, rfl⟩
  | some st =>
    simp only [deliveryStorageCheck] at h
    split at h
    · split at h
      · unfold TaskQueueEntry.new at h
        rw [Prod.ext_iff] at h
        obtain ⟨he, hl⟩ := h
        subst he
        subst hl
        exact Or.inl rfl
      · rw [Prod.ext_iff] at h
        obtain ⟨he, hl⟩ := h
        subst he
        subst hl
        exact Or.inr ⟨rfl, rfl⟩
    · rw [Prod.ext_iff] at h
      obtain ⟨he, hl⟩ := h
      subst he
      subst hl
      exact Or.inr ⟨rfl, rfl⟩

/-- Ledger shape of the hauler terminal check. -/
theorem deliveryTerminalCheck_shape (ea : Nat) (l : Ledger)
    (mt ms : Option StructureInfo) (time : Nat) (e : TaskQueueEntry)
    (l1 : Ledger) (h : deliveryTerminalCheck ea l mt ms time = (e, l1)) :
    l1 = add_reservation_with_amount l e.task e.amount ∨
      (e.amount = 0 ∧ l1 = l) := by
  cases mt with
  | none => exact deliveryStorageCheck_shape ea l ms time e l1 h
  | some tm =>
    simp only [deliveryTerminalCheck] at h
    split at h
    · split at h
      · split at h
        · unfold TaskQueueEntry.new at h
          rw [Prod.ext_iff] at h
          obtain ⟨he, hl⟩ := h
          subst he
          subst hl
          exact Or.inl rfl
        · exact deliveryStorageCheck_shape ea l ms time e l1 h
      · exact deliveryStorageCheck_shape ea l ms time e l1 h
    · exact deliveryStorageCheck_shape ea l ms time e l1 h

/-- Ledger shape of the hauler delivery proposal. -/
theorem find_delivery_target_shape (room : Room) (ea time : Nat)
    (l : Ledger) (e : TaskQueueEntry) (l1 : Ledger)
    (h : find_delivery_target room ea l time = (e, l1)) :
    l1 = add_reservation_with_amount l e.task e.amount ∨
      (e.amount = 0 ∧ l1 = l) := by
  unfold find_delivery_target at h
  cases hL : deliveryPriorityLoop ea l room.structures none none with
  | inl r =>
    rw [hL] at h
    have h2 : r = (e, l1) := h
    subst h2
    exact Or.inl (deliveryPriorityLoop_shape ea l room.structures none none
      e l1 hL)
  | inr p =>
    rw [hL] at h
    obtain ⟨ms, mt⟩ := p
    have h2 : deliveryTerminalCheck ea l mt ms time = (e, l1) := h
    exact deliveryTerminalCheck_shape ea l mt ms time e l1 h2

/-- The store of an agent carrying 50 energy with no free capacity. -/
def repairStore : Store := ⟨50, 0⟩

/-- A world whose room 0 is `repairRoom`, at tick 0. -/
def repairWorld : World where
  rooms := fun n => if n = 0 then some repairRoom else none
  time := 0
  lookSources := fun _ => none

/-- C9 counterexample: with a watermark of 3100 the `repairRoom`
structure needs 30 repair energy; a first builder proposal claims 50 on
it, and a second proposal from the state the first left (ledger
mutations retained) finds the claim (50) at or above the need (30),
skips the structure, and returns the idle fallback instead of the same
entry. -/
theorem reproposal_changes_entry :
    find_task (RoleSpec.builder 0 3100) repairStore repairWorld []
      = some (⟨Task.Repair 1, 50⟩, [(Task.Repair 1, 50)]) ∧
    (find_task (RoleSpec.builder 0 3100) repairStore repairWorld
        [(Task.Repair 1, 50)]).map Prod.fst
      = some (TaskQueueEntry.new_unreserved
          (Task.IdleUntil (0 + NO_TASK_IDLE_TICKS))) ∧
    (⟨Task.Repair 1, 50⟩ : TaskQueueEntry)
      ≠ TaskQueueEntry.new_unreserved
          (Task.IdleUntil (0 + NO_TASK_IDLE_TICKS)) := by
  refine ⟨rfl, rfl, by decide⟩

/-- C9 amended: re-proposing against an unchanged world yields the same
entry provided the first entry's reservation is released before the
second call (as happens when a queue entry is removed); with the first
call's ledger mutations retained, the second call can differ.  The
hypotheses rule out ledger states with duplicate keys and claims that
saturate at `u32::MAX`. -/
theorem reproposal_same_entry_after_release (role : RoleSpec)
    (store : Store) (w : World) (l : Ledger) (e : TaskQueueEntry)
    (l1 : Ledger) (h : find_task role store w l = some (e, l1))
    (hnd : (l.map Prod.fst).Nodup)
    (hb : lookup0 l e.task + e.amount ≤ u32max) :
    (find_task role store w (release l1 e.task e.amount)).map Prod.fst
      = some e := by
  cases role with
  | tower r => simp [find_task] at h
  | source_harvester pos =>
    simp only [find_task] at h ⊢
    injection h with h2
    rw [Prod.ext_iff] at h2
    obtain ⟨he, -⟩ := h2
    simp at he
    simp [he]
  | startup home idv =>
    simp only [find_task] at h ⊢
    cases hw : w.rooms home with
    | none =>
      rw [hw] at h
      injection h with h2
      rw [Prod.ext_iff] at h2
      obtain ⟨he, -⟩ := h2
      simp at he
      simp [he]
    | some room =>
      rw [hw] at h
      by_cases hea : store.usedEnergy > 0
      · simp only [if_pos hea] at h ⊢
        injection h with h2
        rw [Prod.ext_iff] at h2
        obtain ⟨he, -⟩ := h2
        simp at he
        simp [he]
      · simp only [if_neg hea] at h ⊢
        injection h with h2
        rw [Prod.ext_iff] at h2
        obtain ⟨he, -⟩ := h2
        simp at he
        simp [he]
  | builder home wm =>
    simp only [find_task] at h ⊢
    cases hw : w.rooms home with
    | none =>
      rw [hw] at h
      injection h with h2
      rw [Prod.ext_iff] at h2
      obtain ⟨he, -⟩ := h2
      simp at he
      simp [he]
    | some room =>
      rw [hw] at h
      by_cases hea : store.usedEnergy > 0
      · simp only [if_pos hea] at h ⊢
        injection h with h2
        have h3 : find_build_or_repair_task room wm store.usedEnergy l w.time
            = (e, l1) := h2
        have hshape := find_build_or_repair_shape room wm store.usedEnergy
          w.time l e l1 h3
        have hp : ∀ u, lookup0 (release l1 e.task e.amount) u = lookup0 l u := by
          intro u
          rcases hshape with hs | ⟨ha, hs⟩
          · rw [hs]
            exact lookup0_release_add l e.task e.amount hb hnd u
          · rw [hs, ha]
            exact lookup0_release_zero l e.task hnd u
        show (some (find_build_or_repair_task room wm store.usedEnergy
          (release l1 e.task e.amount) w.time)).map Prod.fst = some e
        rw [Option.map_some',
          find_build_or_repair_fst_ext room wm store.usedEnergy w.time
            (release l1 e.task e.amount) l hp, h3]
      · simp only [if_neg hea] at h ⊢
        by_cases hcap : clampU32 store.freeEnergy > 0
        · simp only [if_pos hcap] at h ⊢
          injection h with h2
          have h3 : builderFindEnergyOrSource room (clampU32 store.freeEnergy)
              l w.time = (e, l1) := h2
          have hshape := builderFindEnergyOrSource_shape room
            (clampU32 store.freeEnergy) w.time l e l1 h3
          have hp : ∀ u, lookup0 (release l1 e.task e.amount) u
              = lookup0 l u := by
            intro u
            rcases hshape with hs | ⟨ha, hs⟩
            · rw [hs]
              exact lookup0_release_add l e.task e.amount hb hnd u
            · rw [hs, ha]
              exact lookup0_release_zero l e.task hnd u
          show (some (builderFindEnergyOrSource room
            (clampU32 store.freeEnergy) (release l1 e.task e.amount)
            w.time)).map Prod.fst = some e
          rw [Option.map_some',
            builderFindEnergyOrSource_fst_ext room (clampU32 store.freeEnergy)
              w.time (release l1 e.task e.amount) l hp, h3]
        · simp only [if_neg hcap] at h ⊢
          injection h with h2
          rw [Prod.ext_iff] at h2
          obtain ⟨he, -⟩ := h2
          simp at he
          simp [he]
  | hauler home idv =>
    simp only [find_task] at h ⊢
    cases hw : w.rooms home with
    | none =>
      rw [hw] at h
      injection h with h2
      rw [Prod.ext_iff] at h2
      obtain ⟨he, -⟩ := h2
      simp at he
      simp [he]
    | some room =>
      rw [hw] at h
      by_cases hea : store.usedEnergy > 0
      · simp only [if_pos hea] at h ⊢
        injection h with h2
        have h3 : find_delivery_target room store.usedEnergy l w.time
            = (e, l1) := h2
        have hshape := find_delivery_target_shape room store.usedEnergy
          w.time l e l1 h3
        have hp : ∀ u, lookup0 (release l1 e.task e.amount) u = lookup0 l u := by
          intro u
          rcases hshape with hs | ⟨ha, hs⟩
          · rw [hs]
            exact lookup0_release_add l e.task e.amount hb hnd u
          · rw [hs, ha]
            exact lookup0_release_zero l e.task hnd u
        show (some (find_delivery_target room store.usedEnergy
          (release l1 e.task e.amount) w.time)).map Prod.fst = some e
        rw [Option.map_some',
          find_delivery_target_fst_ext room store.usedEnergy w.time
            (release l1 e.task e.amount) l hp, h3]
      · simp only [if_neg hea] at h ⊢
        by_cases hcap : clampU32 store.freeEnergy > 0
        · simp only [if_pos hcap] at h ⊢
          injection h with h2
          have h3 : find_energy room (clampU32 store.freeEnergy) l w.time
              = (e, l1) := h2
          have hshape := find_energy_shape room (clampU32 store.freeEnergy)
            w.time l e l1 h3
          have hp : ∀ u, lookup0 (release l1 e.task e.amount) u
              = lookup0 l u := by
            intro u
            rcases hshape with hs | ⟨ha, hs⟩
            · rw [hs]
              exact lookup0_release_add l e.task e.amount hb hnd u
            · rw [hs, ha]
              exact lookup0_release_zero l e.task hnd u
          show (some (find_energy room (clampU32 store.freeEnergy)
            (release l1 e.task e.amount) w.time)).map Prod.fst = some e
          rw [Option.map_some',
            find_energy_fst_ext room (clampU32 store.freeEnergy) w.time
              (release l1 e.task e.amount) l hp, h3]
        · simp only [if_neg hcap] at h ⊢
          injection h with h2
          rw [Prod.ext_iff] at h2
          obtain ⟨he, -⟩ := h2
          simp at he
          simp [he]
  | upgrader home idv =>
    simp only [find_task] at h ⊢
    cases hw : w.rooms home with
    | none =>
      rw [hw] at h
      injection h with h2
      rw [Prod.ext_iff] at h2
      obtain ⟨he, -⟩ := h2
      simp at he
      simp [he]
    | some room =>
      rw [hw] at h
      by_cases hea : store.usedEnergy > 0
      · simp only [if_pos hea] at h ⊢
        injection h with h2
        have h3 : find_upgrade_task room l w.time = (e, l1) := h2
        show (some (find_upgrade_task room (release l1 e.task e.amount)
          w.time)).map Prod.fst = some e
        rw [Option.map_some',
          find_upgrade_task_fst_ext room w.time
            (release l1 e.task e.amount) l, h3]
      · simp only [if_neg hea] at h ⊢
        by_cases hcap : clampU32 store.freeEnergy > 0
        · simp only [if_pos hcap] at h ⊢
          injection h with h2
          have h3 : upgraderFindEnergyOrSource room
              (clampU32 store.freeEnergy) l w.time = (e, l1) := h2
          have hshape := upgraderFindEnergyOrSource_shape room
            (clampU32 store.freeEnergy) w.time l e l1 h3
          have hp : ∀ u, lookup0 (release l1 e.task e.amount) u
              = lookup0 l u := by
            intro u
            rcases hshape with hs | ⟨ha, hs⟩
            · rw [hs]
              exact lookup0_release_add l e.task e.amount hb hnd u
            · rw [hs, ha]
              exact lookup0_release_zero l e.task hnd u
          show (some (upgraderFindEnergyOrSource room
            (clampU32 store.freeEnergy) (release l1 e.task e.amount)
            w.time)).map Prod.fst = some e
          rw [Option.map_some',
            upgraderFindEnergyOrSource_fst_ext room (clampU32 store.freeEnergy)
              w.time (release l1 e.task e.amount) l hp, h3]
        · simp only [if_neg hcap] at h ⊢
          injection h with h2
          rw [Prod.ext_iff] at h2
          obtain ⟨he, -⟩ := h2
          simp at he
          simp [he]

/-- A room holding only a controller (id 5). -/
def ctrlRoom : Room where
  structures := []
  construction_sites := []
  dropped_resources := []
  sources_active := []
  controller := some 5
  terrainIsWall := fun _ _ => false

/-- A world whose room 0 is `ctrlRoom`, at tick 0. -/
def ctrlWorld : World where
  rooms := fun n => if n = 0 then some ctrlRoom else none
  time := 0
  lookSources := fun _ => none

/-- The store of an agent carrying one energy. -/
def upgStore : Store := ⟨1, 0⟩

/-- Witness for the amended C9: an upgrader re-proposed after its first
reservation is released receives the same upgrade entry. -/
theorem reproposal_same_entry_after_release_witness :
    (find_task (RoleSpec.upgrader 0 1) upgStore ctrlWorld
        (release [(Task.Upgrade 5, 1)]
          (TaskQueueEntry.mk (Task.Upgrade 5) 1).task
          (TaskQueueEntry.mk (Task.Upgrade 5) 1).amount)).map Prod.fst
      = some (TaskQueueEntry.mk (Task.Upgrade 5) 1) :=
  reproposal_same_entry_after_release (RoleSpec.upgrader 0 1) upgStore
    ctrlWorld [] ⟨Task.Upgrade 5, 1⟩ [(Task.Upgrade 5, 1)] rfl (by decide)
    (by decide)

end Screeps
